import Mathlib

/-!
# zfs-fuse / slash adapter: `zfs_operations_slash.c`

A shallow embedding of the adapter layer of `src/patches/zfs_operations_slash.c`
and the properties proved about it.

Conventions of the embedding

* `u64`, `size_t`, `ino_t` values are `Nat`; `int` and `off_t` values are `Int`.
  Where the C code converts between widths the conversion is written out
  (`% 2 ^ 32`, `toInt32`).
* Caller memory is a byte map `Mem` from addresses to byte values; the string
  `name` of a C call is the list of its bytes before the terminating NUL, so
  `strlen name` is the length of the list.
* The storage engine is an external collaborator. It is a record `Engine σ` of
  state-passing primitives over an arbitrary engine state `σ`; every call the
  adapter makes is appended to the trace of the `World`.
* `ASSERT` is compiled out in production builds and is not embedded; `VERIFY`
  aborts the process, which is the result `none`.
-/

namespace ZfsSlash

/-! ## Identifier remap -/

/-- Ingress remap of a caller-supplied id: the C expression `ino == 1 ? 3 : ino`. -/
def toInternal (ino : Nat) : Nat := if ino = 1 then 3 else ino

/-- Egress remap of an engine id: the C expression `nodeid == 3 ? 1 : nodeid`. -/
def toExternal (nodeid : Nat) : Nat := if nodeid = 3 then 1 else nodeid

/-! ## errno values and limits -/

/-- Linux `errno.h` value. -/
def ENOENT : Int := 2
/-- Linux `errno.h` value. -/
def EBADF : Int := 9
/-- Linux `errno.h` value. -/
def ENOMEM : Int := 12
/-- Linux `errno.h` value. -/
def EEXIST : Int := 17
/-- Linux `errno.h` value. -/
def ENOTDIR : Int := 20
/-- Linux `errno.h` value. -/
def EINVAL : Int := 22
/-- Linux `errno.h` value. -/
def ENAMETOOLONG : Int := 36
/-- Linux `errno.h` value. -/
def ENOTEMPTY : Int := 39
/-- Linux `errno.h` value. -/
def ELOOP : Int := 40
/-- Linux `errno.h` value. -/
def EOVERFLOW : Int := 75

/-- The limit `MAXNAMELEN`. Its header `sys/param.h` is not part of the source
file; 256 is the value of the OpenSolaris header. -/
def MAXNAMELEN : Nat := 256

/-! ## Machine integers and memory -/

/-- Conversion of a value to C `int` (32 bits, two's complement). -/
def toInt32 (n : Int) : Int :=
  if n % 2 ^ 32 < 2 ^ 31 then n % 2 ^ 32 else n % 2 ^ 32 - 2 ^ 32

/-- Conversion of a 64-bit unsigned value to `off_t` (64 bits, two's complement). -/
def toInt64 (n : Int) : Int :=
  if n % 2 ^ 64 < 2 ^ 63 then n % 2 ^ 64 else n % 2 ^ 64 - 2 ^ 64

/-- Conversion of a signed value to `__u64`. -/
def toU64 (n : Int) : Nat := (n % 2 ^ 64).toNat

/-- Byte-addressed memory. -/
abbrev Mem := Nat → Nat

/-- The `w` bytes of `v`, least significant first (x86 byte order). -/
def leBytes : Nat → Nat → List Nat
  | 0, _ => []
  | w + 1, v => v % 256 :: leBytes w (v / 256)

/-- The value of a little-endian byte string. -/
def leVal : List Nat → Nat
  | [] => 0
  | b :: bs => b + 256 * leVal bs

/-- Memory after the bytes `bs` are stored from address `addr` on. -/
def writeBytes (m : Mem) (addr : Nat) (bs : List Nat) : Mem :=
  fun a => if addr ≤ a ∧ a < addr + bs.length then bs.getD (a - addr) 0 else m a

/-- The `len` bytes of memory from address `addr` on. -/
def readBytes (m : Mem) (addr len : Nat) : List Nat :=
  (List.range len).map (fun i => m (addr + i))

/-- Store to a `__u64` field. -/
def store64 (m : Mem) (addr v : Nat) : Mem := writeBytes m addr (leBytes 8 v)

/-- Store to a `__u32` field. -/
def store32 (m : Mem) (addr v : Nat) : Mem := writeBytes m addr (leBytes 4 v)

/-- The call `strncpy(dst, name, n)` for `n ≤ strlen(name)`: the first `n` bytes
of the name; when `n` exceeds the length the rest is NUL-filled. -/
def strncpy (m : Mem) (dst : Nat) (name : List Nat) (n : Nat) : Mem :=
  writeBytes m dst (name.take n ++ List.replicate (n - name.length) 0)

/-- The call `memset(dst, c, n)`. -/
def memset (m : Mem) (dst c n : Nat) : Mem := writeBytes m dst (List.replicate n c)

/-! ## Directory records -/

/-- The macro `FUSE_NAME_OFFSET`: offset of `name` in `struct fuse_dirent`
(`__u64 ino; __u64 off; __u32 namelen; __u32 type; char name[0]`). -/
def FUSE_NAME_OFFSET : Nat := 24

/-- The macro `FUSE_DIRENT_ALIGN(x)`, `((x) + sizeof(__u64) - 1) & ~(sizeof(__u64) - 1)`
in `size_t` arithmetic. -/
def FUSE_DIRENT_ALIGN (x : Nat) : Nat := ((x + 8 - 1) % 2 ^ 64) &&& (2 ^ 64 - 8)

/-- The function `fuse_dirent_size`. -/
def fuse_dirent_size (namelen : Nat) : Nat :=
  FUSE_DIRENT_ALIGN ((FUSE_NAME_OFFSET + namelen) % 2 ^ 64)

/-- The function `fuse_add_dirent`: writes one record at `buf` and returns the
memory and the advanced pointer. `namelen`, `entlen`, `entsize` and `padlen`
are `unsigned`. -/
def fuse_add_dirent (m : Mem) (buf : Nat) (name : List Nat) (st_ino st_mode : Nat)
    (off : Int) : Mem × Nat :=
  let namelen := name.length % 2 ^ 32
  let entlen := (FUSE_NAME_OFFSET + namelen) % 2 ^ 32
  let entsize := fuse_dirent_size namelen % 2 ^ 32
  let padlen := (entsize + 2 ^ 32 - entlen) % 2 ^ 32
  let m := store64 m buf st_ino
  let m := store64 m (buf + 8) (toU64 off)
  let m := store32 m (buf + 16) namelen
  let m := store32 m (buf + 20) ((st_mode &&& 0o170000) >>> 12)
  let m := strncpy m (buf + FUSE_NAME_OFFSET) name namelen
  let m := if padlen ≠ 0 then memset m (buf + entlen) 0 padlen else m
  (m, buf + entsize)

/-! ## Engine objects -/

/-- The vnode types of `sys/vnode.h`. -/
inductive vtype where
  | VNON | VREG | VDIR | VBLK | VCHR | VLNK | VFIFO | VDOOR | VPROC | VSOCK | VPORT | VBAD
deriving DecidableEq, Repr

/-- A vnode together with the fields of its znode the adapter reads:
`VTOZ(vp)->z_id`, `VTOZ(vp)->z_phys->zp_gen` and `vp->v_type`. `ZTOV` and `VTOZ`
are the identity on this record. -/
structure Vnode where
  z_id : Nat
  zp_gen : Nat
  v_type : vtype
deriving DecidableEq, Repr

/-- A `timestruc_t`. -/
structure Timestruc where
  tv_sec : Int
  tv_nsec : Int
deriving DecidableEq, Repr

/-- The engine attribute record `vattr_t`. -/
structure Vattr where
  va_mask : Nat
  va_type : vtype
  va_mode : Nat
  va_uid : Nat
  va_gid : Nat
  va_fsid : Nat
  va_nodeid : Nat
  va_nlink : Nat
  va_size : Nat
  va_atime : Timestruc
  va_mtime : Timestruc
  va_ctime : Timestruc
  va_rdev : Nat
  va_blksize : Nat
  va_nblocks : Nat
deriving DecidableEq, Repr

/-- The record `vattr_t vattr = { 0 }`. -/
def Vattr.zero : Vattr :=
  { va_mask := 0, va_type := vtype.VNON, va_mode := 0, va_uid := 0, va_gid := 0, va_fsid := 0,
    va_nodeid := 0, va_nlink := 0, va_size := 0, va_atime := ⟨0, 0⟩, va_mtime := ⟨0, 0⟩,
    va_ctime := ⟨0, 0⟩, va_rdev := 0, va_blksize := 0, va_nblocks := 0 }

/-- The fields of `struct stat` the adapter assigns; `st_rest` stands for every
other byte of the record (nanosecond parts, padding). -/
structure Stat where
  st_dev : Nat
  st_ino : Nat
  st_mode : Nat
  st_nlink : Nat
  st_uid : Nat
  st_gid : Nat
  st_rdev : Nat
  st_size : Nat
  st_blksize : Nat
  st_blocks : Nat
  st_atime : Int
  st_mtime : Int
  st_ctime : Int
  st_rest : Nat
deriving DecidableEq, Repr

/-- The record after `memset(stbuf, 0, sizeof(struct stat))`. -/
def Stat.zero : Stat :=
  { st_dev := 0, st_ino := 0, st_mode := 0, st_nlink := 0, st_uid := 0, st_gid := 0,
    st_rdev := 0, st_size := 0, st_blksize := 0, st_blocks := 0, st_atime := 0, st_mtime := 0,
    st_ctime := 0, st_rest := 0 }

/-- The pair `struct fidgen`. -/
structure fidgen where
  fid : Nat
  gen : Nat
deriving DecidableEq, Repr

/-- The per-open record `file_info_t`. -/
structure file_info where
  vp : Vnode
  flags : Nat
deriving DecidableEq, Repr

/-- One native directory entry, the fields of `struct dirent64` the adapter reads. -/
structure Dirent where
  d_ino : Nat
  d_off : Int
  d_name : List Nat
deriving DecidableEq, Repr

/-- Constants and tables of headers that are not part of the source file
(`fcntl.h`, `sys/file.h`, `sys/vnode.h`, `sys/mode.h`, `unistd.h`). -/
structure Consts where
  O_WRONLY : Nat
  O_RDWR : Nat
  O_CREAT : Nat
  O_SYNC : Nat
  O_DSYNC : Nat
  O_RSYNC : Nat
  O_APPEND : Nat
  O_LARGEFILE : Nat
  O_NOFOLLOW : Nat
  O_TRUNC : Nat
  O_EXCL : Nat
  FREAD : Nat
  FWRITE : Nat
  FCREAT : Nat
  FSYNC : Nat
  FDSYNC : Nat
  FRSYNC : Nat
  FAPPEND : Nat
  FOFFMAX : Nat
  FNOFOLLOW : Nat
  FTRUNC : Nat
  FEXCL : Nat
  VREAD : Nat
  VWRITE : Nat
  VEXEC : Nat
  R_OK : Nat
  W_OK : Nat
  X_OK : Nat
  AT_TYPE : Nat
  AT_MODE : Nat
  AT_UID : Nat
  AT_GID : Nat
  AT_SIZE : Nat
  AT_ATIME : Nat
  AT_MTIME : Nat
  AT_STAT : Nat
  AT_NBLOCKS : Nat
  AT_BLKSIZE : Nat
  ATTR_UTIME : Nat
  PERMMASK : Nat
  MAXOFF32_T : Nat
  F_FREESP : Nat
  F_WRLCK : Nat
  sizeof_charp : Nat
  VTTOIF : vtype → Nat

/-- The values of the OpenSolaris and Linux x86-64 headers, for evaluation. -/
def solarisConsts : Consts :=
  { O_WRONLY := 0o1, O_RDWR := 0o2, O_CREAT := 0o100, O_SYNC := 0o4010000, O_DSYNC := 0o10000,
    O_RSYNC := 0o4010000, O_APPEND := 0o2000, O_LARGEFILE := 0, O_NOFOLLOW := 0o400000,
    O_TRUNC := 0o1000, O_EXCL := 0o200,
    FREAD := 0x01, FWRITE := 0x02, FCREAT := 0x0100, FSYNC := 0x10, FDSYNC := 0x40,
    FRSYNC := 0x8000, FAPPEND := 0x08, FOFFMAX := 0x2000, FNOFOLLOW := 0x20000,
    FTRUNC := 0x0200, FEXCL := 0x0400,
    VREAD := 0o400, VWRITE := 0o200, VEXEC := 0o100,
    R_OK := 4, W_OK := 2, X_OK := 1,
    AT_TYPE := 0x1, AT_MODE := 0x2, AT_UID := 0x4, AT_GID := 0x8, AT_SIZE := 0x80,
    AT_ATIME := 0x100, AT_MTIME := 0x200, AT_STAT := 0xfff, AT_NBLOCKS := 0x2000,
    AT_BLKSIZE := 0x1000, ATTR_UTIME := 0x01, PERMMASK := 0o777, MAXOFF32_T := 0x7fffffff,
    F_FREESP := 11, F_WRLCK := 1, sizeof_charp := 8,
    VTTOIF := fun t => match t with
      | vtype.VNON => 0 | vtype.VREG => 0o100000 | vtype.VDIR => 0o040000
      | vtype.VBLK => 0o060000 | vtype.VCHR => 0o020000 | vtype.VLNK => 0o120000
      | vtype.VFIFO => 0o010000 | vtype.VDOOR => 0o150000 | vtype.VPROC => 0o010000
      | vtype.VSOCK => 0o140000 | vtype.VPORT => 0o160000 | vtype.VBAD => 0 }

/-! ## The engine interface and the call trace -/

/-- The engine primitives the adapter calls. -/
inductive Prim where
  | GETATTR | LOOKUP | ACCESS | OPEN | CLOSE | READDIR | CREATE | READLINK | READ | WRITE
  | MKDIR | RMDIR | SPACE | SETATTR | REMOVE | SYMLINK | RENAME | LINK | FSYNC
deriving DecidableEq, Repr

/-- One step of the adapter against the engine. `zget` and `vop` record the
return code of the call; `vop` records the vnode the call was made on, its
numeric arguments, and the vnode it handed back holding a new reference (for
`VOP_LOOKUP`, `VOP_CREATE` and `VOP_MKDIR` on success). -/
inductive Ev where
  | enter
  | exit
  | zget (id : Nat) (err : Int) (vp : Vnode)
  | vop (p : Prim) (tgt : Vnode) (args : List Int) (err : Int) (out : Option Vnode)
  | rele (vp : Vnode)
  | alloc (ok : Bool)
  | free
deriving DecidableEq, Repr

/-- The storage engine: each primitive takes the engine state and returns its
return code, its output and the next state. The credential argument of the C
calls is part of the engine state. A vnode output is meaningful when the
return code is 0. -/
structure Engine (σ : Type) where
  zfs_zget : σ → Nat → Bool → Int × Vnode × σ
  VOP_GETATTR : σ → Vnode → Nat → Int × Vattr × σ
  VOP_LOOKUP : σ → Vnode → List Nat → Int × Vnode × σ
  VOP_ACCESS : σ → Vnode → Nat → Int × σ
  VOP_OPEN : σ → Vnode → Nat → Int × σ
  VOP_CLOSE : σ → Vnode → Nat → Int × σ
  VOP_READDIR : σ → Vnode → Int → Int × Option Dirent × σ
  VOP_CREATE : σ → Vnode → Option (List Nat) → Vattr → Bool → Nat → Int × Vnode × σ
  VOP_READLINK : σ → Vnode → Nat → Int × List Nat × σ
  VOP_READ : σ → Vnode → Nat → Int → Nat → Int × List Nat × σ
  VOP_WRITE : σ → Vnode → List Nat → Int → Nat → Int × Nat × σ
  VOP_MKDIR : σ → Vnode → List Nat → Vattr → Int × Vnode × σ
  VOP_RMDIR : σ → Vnode → List Nat → Int × σ
  VOP_SPACE : σ → Vnode → Nat → Nat → Nat → Int × σ
  VOP_SETATTR : σ → Vnode → Vattr → Nat → Int × σ
  VOP_REMOVE : σ → Vnode → List Nat → Int × σ
  VOP_SYMLINK : σ → Vnode → List Nat → Vattr → List Nat → Int × σ
  VOP_RENAME : σ → Vnode → List Nat → Vnode → List Nat → Int × σ
  VOP_LINK : σ → Vnode → Vnode → List Nat → Int × σ
  VOP_FSYNC : σ → Vnode → Nat → Int × σ
  kmem_cache_alloc : σ → Bool × σ

/-- The engine state together with the calls made so far. -/
structure World (σ : Type) where
  st : σ
  trace : List Ev

/-- Return code, output and world of a call. -/
structure Ret (σ : Type) (α : Type) where
  err : Int
  val : α
  w : World σ

variable {σ : Type}

/-- Append one step to the trace. -/
def World.log (w : World σ) (e : Ev) : World σ := { w with trace := w.trace ++ [e] }

/-- The fence `ZFS_ENTER(zfsvfs)` on a mounted filesystem. -/
def ZFS_ENTER (w : World σ) : World σ := w.log Ev.enter

/-- The fence `ZFS_EXIT(zfsvfs)`. -/
def ZFS_EXIT (w : World σ) : World σ := w.log Ev.exit

/-- The call `VN_RELE(vp)`: drops one reference of `vp`. -/
def VN_RELE (w : World σ) (vp : Vnode) : World σ := w.log (Ev.rele vp)

/-- The call `kmem_cache_free(file_info_cache, info)`. -/
def kmem_cache_free (w : World σ) : World σ := w.log Ev.free

/-- The call `zfs_zget(zfsvfs, id, &znode, flag)`. -/
def zfs_zget (E : Engine σ) (w : World σ) (id : Nat) (flag : Bool) : Ret σ Vnode :=
  let r := E.zfs_zget w.st id flag
  ⟨r.1, r.2.1, ⟨r.2.2, w.trace ++ [Ev.zget id r.1 r.2.1]⟩⟩

/-- A call of a primitive that hands back no vnode. -/
def vopCall (w : World σ) (p : Prim) (vp : Vnode) (args : List Int) (r : Int × σ) :
    Ret σ Unit :=
  ⟨r.1, (), ⟨r.2, w.trace ++ [Ev.vop p vp args r.1 none]⟩⟩

/-- A call of a primitive with an output that is not a vnode. -/
def vopOut {α : Type} (w : World σ) (p : Prim) (vp : Vnode) (args : List Int)
    (r : Int × α × σ) : Ret σ α :=
  ⟨r.1, r.2.1, ⟨r.2.2, w.trace ++ [Ev.vop p vp args r.1 none]⟩⟩

/-- A call of a primitive that on success hands back a vnode holding a new
reference (`VOP_LOOKUP`, `VOP_CREATE`, `VOP_MKDIR`). -/
def vopNew (w : World σ) (p : Prim) (vp : Vnode) (args : List Int) (r : Int × Vnode × σ) :
    Ret σ Vnode :=
  ⟨r.1, r.2.1, ⟨r.2.2, w.trace ++ [Ev.vop p vp args r.1 (if r.1 = 0 then some r.2.1 else none)]⟩⟩

/-- The call `VOP_GETATTR(vp, &vattr, 0, cred, NULL)` with `vattr.va_mask = mask`. -/
def VOP_GETATTR (E : Engine σ) (w : World σ) (vp : Vnode) (mask : Nat) : Ret σ Vattr :=
  vopOut w Prim.GETATTR vp [mask] (E.VOP_GETATTR w.st vp mask)

/-- The call `VOP_LOOKUP(dvp, name, &vp, ...)`. -/
def VOP_LOOKUP (E : Engine σ) (w : World σ) (dvp : Vnode) (name : List Nat) : Ret σ Vnode :=
  vopNew w Prim.LOOKUP dvp [] (E.VOP_LOOKUP w.st dvp name)

/-- The call `VOP_ACCESS(vp, mode, 0, cred, NULL)`. -/
def VOP_ACCESS (E : Engine σ) (w : World σ) (vp : Vnode) (mode : Nat) : Ret σ Unit :=
  vopCall w Prim.ACCESS vp [mode] (E.VOP_ACCESS w.st vp mode)

/-- The call `VOP_OPEN(&vp, flags, cred, NULL)`; the vnode is not replaced
(`ASSERT(old_vp == vp)`). -/
def VOP_OPEN (E : Engine σ) (w : World σ) (vp : Vnode) (flags : Nat) : Ret σ Unit :=
  vopCall w Prim.OPEN vp [flags] (E.VOP_OPEN w.st vp flags)

/-- The call `VOP_CLOSE(vp, flags, 1, 0, cred, NULL)`. -/
def VOP_CLOSE (E : Engine σ) (w : World σ) (vp : Vnode) (flags : Nat) : Ret σ Unit :=
  vopCall w Prim.CLOSE vp [flags] (E.VOP_CLOSE w.st vp flags)

/-- The call `VOP_READDIR(vp, &uio, cred, &eofp, NULL, 0)` with `uio_loffset = next`
into the one-entry buffer `entry`: the entry read, or `none` when nothing was
copied (`iovec.iov_base == entry.buf`). -/
def VOP_READDIR (E : Engine σ) (w : World σ) (vp : Vnode) (next : Int) :
    Ret σ (Option Dirent) :=
  vopOut w Prim.READDIR vp [next] (E.VOP_READDIR w.st vp next)

/-- The call `VOP_CREATE(vp, name, &vattr, excl, mode, &new_vp, cred, 0, NULL, NULL)`. -/
def VOP_CREATE (E : Engine σ) (w : World σ) (vp : Vnode) (name : Option (List Nat))
    (vattr : Vattr) (excl : Bool) (mode : Nat) : Ret σ Vnode :=
  vopNew w Prim.CREATE vp [vattr.va_mask, vattr.va_size, if excl then 1 else 0, mode]
    (E.VOP_CREATE w.st vp name vattr excl mode)

/-- The call `VOP_READLINK(vp, &uio, cred, NULL)` with `uio_resid = len`: the
bytes the engine moves to the caller. -/
def VOP_READLINK (E : Engine σ) (w : World σ) (vp : Vnode) (len : Nat) : Ret σ (List Nat) :=
  vopOut w Prim.READLINK vp [len] (E.VOP_READLINK w.st vp len)

/-- The call `VOP_MKDIR(dvp, name, &vattr, &vp, cred, NULL, 0, NULL)`. -/
def VOP_MKDIR (E : Engine σ) (w : World σ) (dvp : Vnode) (name : List Nat) (vattr : Vattr) :
    Ret σ Vnode :=
  vopNew w Prim.MKDIR dvp [vattr.va_mask, vattr.va_mode] (E.VOP_MKDIR w.st dvp name vattr)

/-- The call `VOP_RMDIR(dvp, name, NULL, cred, NULL, 0)`. -/
def VOP_RMDIR (E : Engine σ) (w : World σ) (dvp : Vnode) (name : List Nat) : Ret σ Unit :=
  vopCall w Prim.RMDIR dvp [] (E.VOP_RMDIR w.st dvp name)

/-- The call `VOP_SPACE(vp, F_FREESP, &bf, flags, 0, cred, NULL)` with
`bf.l_start = start`. -/
def VOP_SPACE (E : Engine σ) (w : World σ) (vp : Vnode) (cmd start flags : Nat) : Ret σ Unit :=
  vopCall w Prim.SPACE vp [cmd, start, flags] (E.VOP_SPACE w.st vp cmd start flags)

/-- The call `VOP_SETATTR(vp, &vattr, flags, cred, NULL)`. -/
def VOP_SETATTR (E : Engine σ) (w : World σ) (vp : Vnode) (vattr : Vattr) (flags : Nat) :
    Ret σ Unit :=
  vopCall w Prim.SETATTR vp [vattr.va_mask, flags] (E.VOP_SETATTR w.st vp vattr flags)

/-- The call `VOP_REMOVE(dvp, name, cred, NULL, 0)`. -/
def VOP_REMOVE (E : Engine σ) (w : World σ) (dvp : Vnode) (name : List Nat) : Ret σ Unit :=
  vopCall w Prim.REMOVE dvp [] (E.VOP_REMOVE w.st dvp name)

/-- The call `VOP_SYMLINK(dvp, name, &vattr, link, cred, NULL, 0)`. -/
def VOP_SYMLINK (E : Engine σ) (w : World σ) (dvp : Vnode) (name : List Nat) (vattr : Vattr)
    (link : List Nat) : Ret σ Unit :=
  vopCall w Prim.SYMLINK dvp [vattr.va_mask, vattr.va_mode] (E.VOP_SYMLINK w.st dvp name vattr link)

/-- The call `VOP_RENAME(p_vp, name, np_vp, newname, cred, NULL, 0)`. -/
def VOP_RENAME (E : Engine σ) (w : World σ) (p_vp : Vnode) (name : List Nat) (np_vp : Vnode)
    (newname : List Nat) : Ret σ Unit :=
  vopCall w Prim.RENAME p_vp [np_vp.z_id] (E.VOP_RENAME w.st p_vp name np_vp newname)

/-- The call `VOP_LINK(tdvp, svp, newname, cred, NULL, 0)`. -/
def VOP_LINK (E : Engine σ) (w : World σ) (tdvp svp : Vnode) (newname : List Nat) : Ret σ Unit :=
  vopCall w Prim.LINK tdvp [svp.z_id] (E.VOP_LINK w.st tdvp svp newname)

/-- The call `kmem_cache_alloc(file_info_cache, KM_NOSLEEP)`: whether a record
was obtained. -/
def kmem_cache_alloc (E : Engine σ) (w : World σ) : Bool × World σ :=
  let r := E.kmem_cache_alloc w.st
  (r.1, ⟨r.2, w.trace ++ [Ev.alloc r.1]⟩)

/-! ## The operations -/

/-- The translation `error == EEXIST ? ENOENT : error` applied to a failed resolve. -/
def zgetError (error : Int) : Int := if error = EEXIST then ENOENT else error

/-- The function `zfsslash2_stat`. The output record is the argument `stbuf`
when the engine call fails. `VTTOIF` is a table of `sys/mode.h`; the macro
`TIMESTRUC_TO_TIME(ts, &t)` stores the seconds of `ts`. -/
def zfsslash2_stat (K : Consts) (E : Engine σ) (w : World σ) (vp : Vnode) (stbuf : Stat) :
    Ret σ Stat :=
  let va_mask := K.AT_STAT ||| K.AT_NBLOCKS ||| K.AT_BLKSIZE ||| K.AT_SIZE
  let g := VOP_GETATTR E w vp va_mask
  if g.err ≠ 0 then ⟨g.err, stbuf, g.w⟩
  else
    let vattr := g.val
    let stbuf := Stat.zero
    let stbuf := { stbuf with st_dev := vattr.va_fsid }
    let stbuf := { stbuf with st_ino := if vattr.va_nodeid = 3 then 1 else vattr.va_nodeid }
    let stbuf := { stbuf with st_mode := K.VTTOIF vattr.va_type ||| vattr.va_mode }
    let stbuf := { stbuf with st_nlink := vattr.va_nlink }
    let stbuf := { stbuf with st_uid := vattr.va_uid }
    let stbuf := { stbuf with st_gid := vattr.va_gid }
    let stbuf := { stbuf with st_rdev := vattr.va_rdev }
    let stbuf := { stbuf with st_size := vattr.va_size }
    let stbuf := { stbuf with st_blksize := vattr.va_blksize }
    let stbuf := { stbuf with st_blocks := vattr.va_nblocks }
    let stbuf := { stbuf with st_atime := vattr.va_atime.tv_sec }
    let stbuf := { stbuf with st_mtime := vattr.va_mtime.tv_sec }
    let stbuf := { stbuf with st_ctime := vattr.va_ctime.tv_sec }
    ⟨0, stbuf, g.w⟩

/-- The function `zfsslash2_getattr`. -/
def zfsslash2_getattr (K : Consts) (E : Engine σ) (w : World σ) (ino : Nat) (stbuf : Stat) :
    Ret σ Stat :=
  let real_ino := if ino = 1 then 3 else ino
  let w := ZFS_ENTER w
  let r := zfs_zget E w real_ino true
  if r.err ≠ 0 then
    let w := ZFS_EXIT r.w
    ⟨zgetError r.err, stbuf, w⟩
  else
    let vp := r.val
    let q := zfsslash2_stat K E r.w vp stbuf
    let w := VN_RELE q.w vp
    let w := ZFS_EXIT w
    ⟨q.err, q.val, w⟩

/-- The function `zfsslash2_lookup`. The local `vp` is `NULL` until
`VOP_LOOKUP` succeeds; the label `out` is the function `out`. -/
def zfsslash2_lookup (K : Consts) (E : Engine σ) (w : World σ) (parent : Nat)
    (name : List Nat) (stb : Stat) : Ret σ Stat :=
  if name.length ≥ MAXNAMELEN then ⟨ENAMETOOLONG, stb, w⟩
  else
    let parent := if parent = 1 then 3 else parent
    let w := ZFS_ENTER w
    let r := zfs_zget E w parent true
    if r.err ≠ 0 then
      let w := ZFS_EXIT r.w
      ⟨zgetError r.err, stb, w⟩
    else
      let dvp := r.val
      let out := fun (w : World σ) (vp : Option Vnode) (error : Int) (stb : Stat) =>
        let w := match vp with
          | some v => VN_RELE w v
          | none => w
        let w := VN_RELE w dvp
        let w := ZFS_EXIT w
        (⟨error, stb, w⟩ : Ret σ Stat)
      let l := VOP_LOOKUP E r.w dvp name
      if l.err ≠ 0 then out l.w none l.err stb
      else
        let vp := l.val
        let q := zfsslash2_stat K E l.w vp stb
        out q.w (some vp) q.err q.val

/-- The function `zfsslash2_opendir`. Outputs: `*fg` and `*private`. -/
def zfsslash2_opendir (K : Consts) (E : Engine σ) (w : World σ) (ino : Nat) (fg : fidgen)
    (priv : Option file_info) : Ret σ (fidgen × Option file_info) :=
  let ino := if ino = 1 then 3 else ino
  let w := ZFS_ENTER w
  let r := zfs_zget E w ino true
  if r.err ≠ 0 then
    let w := ZFS_EXIT r.w
    ⟨zgetError r.err, (fg, priv), w⟩
  else
    let vp := r.val
    let out := fun (w : World σ) (error : Int) (fg : fidgen) (priv : Option file_info) =>
      let w := if error ≠ 0 then VN_RELE w vp else w
      let w := ZFS_EXIT w
      (⟨error, (fg, priv), w⟩ : Ret σ (fidgen × Option file_info))
    if vp.v_type ≠ vtype.VDIR then out r.w ENOTDIR fg priv
    else
      let a := VOP_ACCESS E r.w vp (K.VREAD ||| K.VEXEC)
      if a.err ≠ 0 then out a.w a.err fg priv
      else
        let o := VOP_OPEN E a.w vp K.FREAD
        if o.err = 0 then
          let al := kmem_cache_alloc E o.w
          if al.1 = false then out al.2 ENOMEM fg priv
          else
            let info : file_info := { vp := vp, flags := K.FREAD }
            let fg := { fg with fid := vp.z_id }
            let fg := if fg.fid = 3 then { fg with fid := 1 } else fg
            let fg := { fg with gen := vp.zp_gen }
            out al.2 o.err fg (some info)
        else out o.w o.err fg priv

/-- The function `zfsslash2_release`. `VERIFY(error == 0)` aborts when the
close fails. -/
def zfsslash2_release (E : Engine σ) (w : World σ) (_ino : Nat) (info : file_info) :
    Option (Ret σ Unit) :=
  let w := ZFS_ENTER w
  let c := VOP_CLOSE E w info.vp info.flags
  if c.err ≠ 0 then none
  else
    let w := VN_RELE c.w info.vp
    let w := kmem_cache_free w
    let w := ZFS_EXIT w
    some ⟨c.err, (), w⟩

/-- The loop `for(;;)` of `zfsslash2_readdir` with the locals `outbuf_off`,
`outbuf_resid` (both `int`) and `next`. It returns the value of `error`, the
memory and `outbuf_off` at the label `out`. The first argument bounds the
number of rounds; `none` is a loop that has not ended within the bound. -/
def readdir_loop (E : Engine σ) (vp : Vnode) (outbuf : Nat) :
    Nat → World σ → Mem → Int → Int → Int → Option (Int × Mem × Int × World σ)
  | 0, _, _, _, _, _ => none
  | fuel + 1, w, m, outbuf_off, outbuf_resid, next =>
    let r := VOP_READDIR E w vp next
    if r.err ≠ 0 then some (r.err, m, outbuf_off, r.w)
    else
      match r.val with
      | none => some (r.err, m, outbuf_off, r.w)
      | some entry =>
        let dsize := toInt32 (fuse_dirent_size entry.d_name.length)
        if dsize > outbuf_resid then some (r.err, m, outbuf_off, r.w)
        else
          let m := (fuse_add_dirent m (outbuf + outbuf_off).toNat entry.d_name entry.d_ino 0
            entry.d_off).1
          readdir_loop E vp outbuf fuel r.w m (toInt32 (outbuf_off + dsize))
            (toInt32 (outbuf_resid - dsize)) entry.d_off

/-- Result of `zfsslash2_readdir`: return code, caller memory, `*outbuf_len`. -/
structure ReaddirRet (σ : Type) where
  err : Int
  mem : Mem
  outbuf_len : Nat
  w : World σ

/-- The function `zfsslash2_readdir`. `outbuf_len` is the value of `*outbuf_len`
before the call, which the early returns leave in place. Every round of the
loop that goes on consumes a positive part of `outbuf_resid`, so the loop is
run for at most `outbuf_resid + 1` rounds. -/
def zfsslash2_readdir (E : Engine σ) (w : World σ) (_ino : Nat) (size : Nat) (off : Int)
    (outbuf : Nat) (m : Mem) (outbuf_len : Nat) (data : file_info) : Option (ReaddirRet σ) :=
  let vp := data.vp
  if vp.v_type ≠ vtype.VDIR then some ⟨ENOTDIR, m, outbuf_len, w⟩
  else if outbuf = 0 then some ⟨EINVAL, m, outbuf_len, w⟩
  else
    let w := ZFS_ENTER w
    let outbuf_off : Int := 0
    let outbuf_resid : Int := toInt32 size
    let next := off
    match readdir_loop E vp outbuf (outbuf_resid.toNat + 1) w m outbuf_off outbuf_resid next with
    | none => none
    | some (error, m, outbuf_off, w) =>
      let w := ZFS_EXIT w
      some ⟨error, m, toU64 outbuf_off, w⟩

/-- Result of `zfsslash2_opencreate`: `*fg`, `*stb` and `*private`. -/
structure OpenOut where
  fg : fidgen
  stb : Stat
  priv : Option file_info

/-- The flag word `flags` that `zfsslash2_opencreate` derives from `fflags`. -/
def openFlags (K : Consts) (fflags : Nat) : Nat :=
  let flags :=
    if fflags &&& K.O_WRONLY ≠ 0 then K.FWRITE
    else if fflags &&& K.O_RDWR ≠ 0 then K.FREAD ||| K.FWRITE
    else K.FREAD
  let flags := if fflags &&& K.O_CREAT ≠ 0 then flags ||| K.FCREAT else flags
  let flags := if fflags &&& K.O_SYNC ≠ 0 then flags ||| K.FSYNC else flags
  let flags := if fflags &&& K.O_DSYNC ≠ 0 then flags ||| K.FDSYNC else flags
  let flags := if fflags &&& K.O_RSYNC ≠ 0 then flags ||| K.FRSYNC else flags
  let flags := if fflags &&& K.O_APPEND ≠ 0 then flags ||| K.FAPPEND else flags
  let flags := if fflags &&& K.O_LARGEFILE ≠ 0 then flags ||| K.FOFFMAX else flags
  let flags := if fflags &&& K.O_NOFOLLOW ≠ 0 then flags ||| K.FNOFOLLOW else flags
  let flags := if fflags &&& K.O_TRUNC ≠ 0 then flags ||| K.FTRUNC else flags
  let flags := if fflags &&& K.O_EXCL ≠ 0 then flags ||| K.FEXCL else flags
  flags

/-- The access word `mode` that `zfsslash2_opencreate` derives from `fflags`. -/
def openMode (K : Consts) (fflags : Nat) : Nat :=
  if fflags &&& K.O_WRONLY ≠ 0 then K.VWRITE
  else if fflags &&& K.O_RDWR ≠ 0 then K.VREAD ||| K.VWRITE
  else K.VREAD

/-- The creation attributes `vattr` that `zfsslash2_opencreate` hands to
`VOP_CREATE`; the fields it leaves unassigned are taken as 0. -/
def createVattr (K : Consts) (createmode : Nat) (flags : Nat) : Vattr :=
  let vattr := { Vattr.zero with va_type := vtype.VREG, va_mode := createmode,
                                 va_mask := K.AT_TYPE ||| K.AT_MODE }
  let vattr :=
    if flags &&& K.FTRUNC ≠ 0 then
      { vattr with va_size := 0, va_mask := vattr.va_mask ||| K.AT_SIZE }
    else vattr
  vattr

/-- The label `out` of `zfsslash2_opencreate`: `vp` and `error` are the locals
of that name when the label is reached. -/
def zfsslash2_opencreate_out (w : World σ) (vp : Vnode) (error : Int) (o : OpenOut) :
    Ret σ OpenOut :=
  let w := if error ≠ 0 then VN_RELE w vp else w
  let w := ZFS_EXIT w
  ⟨error, o, w⟩

/-- The part of `zfsslash2_opencreate` from the `FNOFOLLOW` test to the end, run
on the vnode that the create branch or the plain-open branch leaves in the
local `vp`. -/
def zfsslash2_opencreate_open (K : Consts) (E : Engine σ) (flags : Nat) (o : OpenOut)
    (w : World σ) (vp : Vnode) : Ret σ OpenOut :=
  if flags &&& K.FNOFOLLOW ≠ 0 ∧ vp.v_type = vtype.VLNK then
    zfsslash2_opencreate_out w vp ELOOP o
  else
    let op := VOP_OPEN E w vp flags
    if op.err ≠ 0 then zfsslash2_opencreate_out op.w vp op.err o
    else
      let q := zfsslash2_stat K E op.w vp o.stb
      let o := { o with stb := q.val }
      if q.err ≠ 0 then zfsslash2_opencreate_out q.w vp q.err o
      else
        let al := kmem_cache_alloc E q.w
        if al.1 = false then zfsslash2_opencreate_out al.2 vp ENOMEM o
        else
          let info : file_info := { vp := vp, flags := flags }
          let o := { o with priv := some info }
          let o :=
            if flags &&& K.FCREAT ≠ 0 then
              let fg : fidgen := { o.fg with fid := vp.z_id }
              let fg := if fg.fid = 3 then { fg with fid := 1 } else fg
              let fg := { fg with gen := vp.zp_gen }
              { o with fg := fg }
            else o
          zfsslash2_opencreate_out al.2 vp q.err o

/-- The function `zfsslash2_opencreate`, up to the `FNOFOLLOW` test; the rest is
`zfsslash2_opencreate_open`. -/
def zfsslash2_opencreate (K : Consts) (E : Engine σ) (w : World σ) (ino : Nat) (fflags : Nat)
    (createmode : Nat) (name : Option (List Nat)) (o : OpenOut) : Ret σ OpenOut :=
  if (match name with
      | some n => decide (n.length ≥ MAXNAMELEN)
      | none => false) = true then ⟨ENAMETOOLONG, o, w⟩
  else
    let real_ino := if ino = 1 then 3 else ino
    let w := ZFS_ENTER w
    let mode := openMode K fflags
    let flags := openFlags K fflags
    let r := zfs_zget E w real_ino false
    if r.err ≠ 0 then
      let w := ZFS_EXIT r.w
      ⟨zgetError r.err, o, w⟩
    else
      let vp := r.val
      if flags &&& K.FCREAT ≠ 0 then
        let vattr := createVattr K createmode flags
        let excl := decide (flags &&& K.FEXCL ≠ 0)
        let c := VOP_CREATE E r.w vp name vattr excl mode
        if c.err ≠ 0 then zfsslash2_opencreate_out c.w vp c.err o
        else
          let new_vp := c.val
          let w := VN_RELE c.w vp
          let vp := new_vp
          zfsslash2_opencreate_open K E flags o w vp
      else
        let checked := fun (w : World σ) =>
          let a := VOP_ACCESS E w vp mode
          if a.err ≠ 0 then zfsslash2_opencreate_out a.w vp a.err o
          else zfsslash2_opencreate_open K E flags o a.w vp
        if flags &&& K.FOFFMAX = 0 ∧ vp.v_type = vtype.VREG then
          let g := VOP_GETATTR E r.w vp K.AT_SIZE
          if g.err ≠ 0 then zfsslash2_opencreate_out g.w vp g.err o
          else if g.val.va_size > K.MAXOFF32_T then zfsslash2_opencreate_out g.w vp EOVERFLOW o
          else checked g.w
        else checked r.w

/-- The function `zfsslash2_readlink`. `buf` is a `char *` parameter, so
`sizeof(buf)` is the pointer size `K.sizeof_charp`. The engine moves at most
`uio_resid` bytes to `buf` and advances `uio_loffset` from 0 by their number.
`VERIFY` aborts when it fails. -/
def zfsslash2_readlink (K : Consts) (E : Engine σ) (w : World σ) (ino : Nat) (buf : Nat)
    (m : Mem) : Option (Ret σ Mem) :=
  let real_ino := if ino = 1 then 3 else ino
  let w := ZFS_ENTER w
  let r := zfs_zget E w real_ino false
  if r.err ≠ 0 then
    let w := ZFS_EXIT r.w
    some ⟨zgetError r.err, m, w⟩
  else
    let vp := r.val
    let iov_len := K.sizeof_charp - 1
    let l := VOP_READLINK E r.w vp iov_len
    let moved := l.val.take iov_len
    let m := writeBytes m buf moved
    let uio_loffset := moved.length
    let w := VN_RELE l.w vp
    let w := ZFS_EXIT w
    if l.err = 0 then
      if uio_loffset < K.sizeof_charp then some ⟨l.err, writeBytes m (buf + uio_loffset) [0], w⟩
      else none
    else some ⟨l.err, m, w⟩

/-- The function `zfsslash2_mkdir`. The declaration
`u64 real_parent = real_parent == 1 ? 3 : parent;` reads the local in its own
initialiser; `uninit` is the indeterminate value the local holds there. -/
def zfsslash2_mkdir (K : Consts) (E : Engine σ) (w : World σ) (uninit : Nat) (parent : Nat)
    (name : List Nat) (mode : Nat) (stb : Stat) (fg : fidgen) : Ret σ (Stat × fidgen) :=
  if name.length ≥ MAXNAMELEN then ⟨ENAMETOOLONG, (stb, fg), w⟩
  else
    let real_parent := if uninit = 1 then 3 else parent
    let w := ZFS_ENTER w
    let r := zfs_zget E w real_parent false
    if r.err ≠ 0 then
      let w := ZFS_EXIT r.w
      ⟨zgetError r.err, (stb, fg), w⟩
    else
      let dvp := r.val
      let out := fun (w : World σ) (vp : Option Vnode) (error : Int) (stb : Stat) (fg : fidgen) =>
        let w := match vp with
          | some v => VN_RELE w v
          | none => w
        let w := VN_RELE w dvp
        let w := ZFS_EXIT w
        (⟨error, (stb, fg), w⟩ : Ret σ (Stat × fidgen))
      let vattr := { Vattr.zero with va_type := vtype.VDIR, va_mode := mode &&& K.PERMMASK,
                                     va_mask := K.AT_TYPE ||| K.AT_MODE }
      let c := VOP_MKDIR E r.w dvp name vattr
      if c.err ≠ 0 then out c.w none c.err stb fg
      else
        let vp := c.val
        let fg : fidgen := { fg with fid := vp.z_id }
        let fg := if fg.fid = 3 then { fg with fid := 1 } else fg
        let fg := { fg with gen := vp.zp_gen }
        let q := zfsslash2_stat K E c.w vp stb
        out q.w (some vp) q.err q.val fg

/-- The function `zfsslash2_rmdir`; `uninit` as in `zfsslash2_mkdir`. -/
def zfsslash2_rmdir (E : Engine σ) (w : World σ) (uninit : Nat) (parent : Nat)
    (name : List Nat) : Ret σ Unit :=
  if name.length ≥ MAXNAMELEN then ⟨ENAMETOOLONG, (), w⟩
  else
    let real_parent := if uninit = 1 then 3 else parent
    let w := ZFS_ENTER w
    let r := zfs_zget E w real_parent false
    if r.err ≠ 0 then
      let w := ZFS_EXIT r.w
      ⟨zgetError r.err, (), w⟩
    else
      let dvp := r.val
      let d := VOP_RMDIR E r.w dvp name
      let error := if d.err = EEXIST then ENOTEMPTY else d.err
      let w := VN_RELE d.w dvp
      let w := ZFS_EXIT w
      ⟨error, (), w⟩

/-- Bit of `to_set` in setattr. -/
def FUSE_SET_ATTR_MODE : Nat := 1 <<< 0
/-- Bit of `to_set` in setattr. -/
def FUSE_SET_ATTR_UID : Nat := 1 <<< 1
/-- Bit of `to_set` in setattr. -/
def FUSE_SET_ATTR_GID : Nat := 1 <<< 2
/-- Bit of `to_set` in setattr. -/
def FUSE_SET_ATTR_SIZE : Nat := 1 <<< 3
/-- Bit of `to_set` in setattr. -/
def FUSE_SET_ATTR_ATIME : Nat := 1 <<< 4
/-- Bit of `to_set` in setattr. -/
def FUSE_SET_ATTR_MTIME : Nat := 1 <<< 5

/-- The attribute record `zfsslash2_setattr` builds from `attr` and `to_set`. -/
def setattrVattr (K : Consts) (attr : Stat) (to_set : Nat) : Vattr :=
  let vattr := Vattr.zero
  let vattr := if to_set &&& FUSE_SET_ATTR_MODE ≠ 0 then
    { vattr with va_mask := vattr.va_mask ||| K.AT_MODE, va_mode := attr.st_mode } else vattr
  let vattr := if to_set &&& FUSE_SET_ATTR_UID ≠ 0 then
    { vattr with va_mask := vattr.va_mask ||| K.AT_UID, va_uid := attr.st_uid } else vattr
  let vattr := if to_set &&& FUSE_SET_ATTR_GID ≠ 0 then
    { vattr with va_mask := vattr.va_mask ||| K.AT_GID, va_gid := attr.st_gid } else vattr
  let vattr := if to_set &&& FUSE_SET_ATTR_SIZE ≠ 0 then
    { vattr with va_mask := vattr.va_mask ||| K.AT_SIZE, va_size := attr.st_size } else vattr
  let vattr := if to_set &&& FUSE_SET_ATTR_ATIME ≠ 0 then
    { vattr with va_mask := vattr.va_mask ||| K.AT_ATIME, va_atime := ⟨attr.st_atime, 0⟩ }
    else vattr
  let vattr := if to_set &&& FUSE_SET_ATTR_MTIME ≠ 0 then
    { vattr with va_mask := vattr.va_mask ||| K.AT_MTIME, va_mtime := ⟨attr.st_mtime, 0⟩ }
    else vattr
  vattr

/-- The flag word `flags` that `zfsslash2_setattr` hands to `VOP_SETATTR`,
`(to_set & (FUSE_SET_ATTR_ATIME | FUSE_SET_ATTR_MTIME)) ? ATTR_UTIME : 0`. -/
def setattrFlags (K : Consts) (to_set : Nat) : Nat :=
  if to_set &&& (FUSE_SET_ATTR_ATIME ||| FUSE_SET_ATTR_MTIME) ≠ 0 then K.ATTR_UTIME else 0

/-- The function `zfsslash2_setattr`; `uninit` as in `zfsslash2_mkdir` (for
`real_ino`), `data` the open handle or `NULL`. The label `out` is the function
`out`; `assign` is the code from `vattr_t vattr = { 0 }` to the call of
`VOP_SETATTR`. `to_set` is an `int`: clearing the size bit keeps its other 31
bits. -/
def zfsslash2_setattr (K : Consts) (E : Engine σ) (w : World σ) (uninit : Nat) (ino : Nat)
    (attr : Stat) (to_set : Nat) (out_attr : Stat) (data : Option file_info) : Ret σ Stat :=
  let real_ino := if uninit = 1 then 3 else ino
  let w := ZFS_ENTER w
  let out := fun (w : World σ) (vp : Vnode) (release : Bool) (error : Int) =>
    let q := if error = 0 then zfsslash2_stat K E w vp out_attr else ⟨error, out_attr, w⟩
    let w := if release then VN_RELE q.w vp else q.w
    let w := ZFS_EXIT w
    (⟨q.err, q.val, w⟩ : Ret σ Stat)
  let assign := fun (w : World σ) (vp : Vnode) (release : Bool) (to_set : Nat) =>
    let vattr := setattrVattr K attr to_set
    let flags := setattrFlags K to_set
    let sa := VOP_SETATTR E w vp vattr flags
    out sa.w vp release sa.err
  match data with
  | none =>
    let r := zfs_zget E w real_ino true
    if r.err ≠ 0 then
      let w := ZFS_EXIT r.w
      ⟨zgetError r.err, out_attr, w⟩
    else assign r.w r.val true to_set
  | some info =>
    let vp := info.vp
    if to_set &&& FUSE_SET_ATTR_SIZE ≠ 0 then
      if info.flags &&& K.FWRITE = 0 then out w vp false EBADF
      else if vp.v_type ≠ vtype.VREG then out w vp false EINVAL
      else
        let sp := VOP_SPACE E w vp K.F_FREESP attr.st_size info.flags
        if sp.err ≠ 0 then out sp.w vp false sp.err
        else
          let to_set := to_set &&& (2 ^ 32 - 1 - FUSE_SET_ATTR_SIZE)
          if to_set = 0 then out sp.w vp false sp.err
          else assign sp.w vp false to_set
    else assign w vp false to_set

/-- The function `zfsslash2_unlink`; `uninit` as in `zfsslash2_mkdir`. -/
def zfsslash2_unlink (E : Engine σ) (w : World σ) (uninit : Nat) (parent : Nat)
    (name : List Nat) : Ret σ Unit :=
  let real_parent := if uninit = 1 then 3 else parent
  if name.length ≥ MAXNAMELEN then ⟨ENAMETOOLONG, (), w⟩
  else
    let w := ZFS_ENTER w
    let r := zfs_zget E w real_parent false
    if r.err ≠ 0 then
      let w := ZFS_EXIT r.w
      ⟨zgetError r.err, (), w⟩
    else
      let dvp := r.val
      let d := VOP_REMOVE E r.w dvp name
      let w := VN_RELE d.w dvp
      let w := ZFS_EXIT w
      ⟨d.err, (), w⟩

/-- The function `zfsslash2_symlink`. -/
def zfsslash2_symlink (K : Consts) (E : Engine σ) (w : World σ) (link : List Nat)
    (parent : Nat) (name : List Nat) (stb : Stat) (fg : fidgen) : Ret σ (Stat × fidgen) :=
  if name.length ≥ MAXNAMELEN then ⟨ENAMETOOLONG, (stb, fg), w⟩
  else
    let real_parent := if parent = 1 then 3 else parent
    let w := ZFS_ENTER w
    let r := zfs_zget E w real_parent false
    if r.err ≠ 0 then
      let w := ZFS_EXIT r.w
      ⟨zgetError r.err, (stb, fg), w⟩
    else
      let dvp := r.val
      let out := fun (w : World σ) (vp : Option Vnode) (error : Int) (stb : Stat) (fg : fidgen) =>
        let w := match vp with
          | some v => VN_RELE w v
          | none => w
        let w := VN_RELE w dvp
        let w := ZFS_EXIT w
        (⟨error, (stb, fg), w⟩ : Ret σ (Stat × fidgen))
      let vattr := { Vattr.zero with va_type := vtype.VLNK, va_mode := 0o777,
                                     va_mask := K.AT_TYPE ||| K.AT_MODE }
      let sl := VOP_SYMLINK E r.w dvp name vattr link
      if sl.err ≠ 0 then out sl.w none sl.err stb fg
      else
        let l := VOP_LOOKUP E sl.w dvp name
        if l.err ≠ 0 then out l.w none l.err stb fg
        else
          let vp := l.val
          let fg : fidgen := { fg with fid := vp.z_id }
          let fg := if fg.fid = 3 then { fg with fid := 1 } else fg
          let fg := { fg with gen := vp.zp_gen }
          let q := zfsslash2_stat K E l.w vp stb
          out q.w (some vp) q.err q.val fg

/-- The function `zfsslash2_rename`. Only `parent` is remapped;
`newparent` is handed to `zfs_zget` as supplied. -/
def zfsslash2_rename (E : Engine σ) (w : World σ) (parent : Nat) (name : List Nat)
    (newparent : Nat) (newname : List Nat) : Ret σ Unit :=
  if name.length ≥ MAXNAMELEN then ⟨ENAMETOOLONG, (), w⟩
  else if newname.length ≥ MAXNAMELEN then ⟨ENAMETOOLONG, (), w⟩
  else
    let parent := if parent = 1 then 3 else parent
    let w := ZFS_ENTER w
    let r := zfs_zget E w parent false
    if r.err ≠ 0 then
      let w := ZFS_EXIT r.w
      ⟨zgetError r.err, (), w⟩
    else
      let p_znode := r.val
      let n := zfs_zget E r.w newparent false
      if n.err ≠ 0 then
        let w := VN_RELE n.w p_znode
        let w := ZFS_EXIT w
        ⟨zgetError n.err, (), w⟩
      else
        let p_vp := p_znode
        let np_vp := n.val
        let rn := VOP_RENAME E n.w p_vp name np_vp newname
        let w := VN_RELE rn.w p_vp
        let w := VN_RELE w np_vp
        let w := ZFS_EXIT w
        ⟨rn.err, (), w⟩

/-- The function `zfsslash2_link`. -/
def zfsslash2_link (K : Consts) (E : Engine σ) (w : World σ) (ino : Nat) (newparent : Nat)
    (newname : List Nat) (fg : fidgen) (stb : Stat) : Ret σ (Stat × fidgen) :=
  if newname.length ≥ MAXNAMELEN then ⟨ENAMETOOLONG, (stb, fg), w⟩
  else
    let newparent := if newparent = 1 then 3 else newparent
    let ino := if ino = 1 then 3 else ino
    let w := ZFS_ENTER w
    let r := zfs_zget E w ino false
    if r.err ≠ 0 then
      let w := ZFS_EXIT r.w
      ⟨zgetError r.err, (stb, fg), w⟩
    else
      let s_znode := r.val
      let t := zfs_zget E r.w newparent false
      if t.err ≠ 0 then
        let w := VN_RELE t.w s_znode
        let w := ZFS_EXIT w
        ⟨zgetError t.err, (stb, fg), w⟩
      else
        let svp := s_znode
        let tdvp := t.val
        let out := fun (w : World σ) (vp : Option Vnode) (error : Int) (stb : Stat)
            (fg : fidgen) =>
          let w := match vp with
            | some v => VN_RELE w v
            | none => w
          let w := VN_RELE w tdvp
          let w := VN_RELE w svp
          let w := ZFS_EXIT w
          (⟨error, (stb, fg), w⟩ : Ret σ (Stat × fidgen))
        let lk := VOP_LINK E t.w tdvp svp newname
        if lk.err ≠ 0 then out lk.w none lk.err stb fg
        else
          let l := VOP_LOOKUP E lk.w tdvp newname
          if l.err ≠ 0 then out l.w none l.err stb fg
          else
            let vp := l.val
            let fg : fidgen := { fg with fid := vp.z_id }
            let fg := if fg.fid = 3 then { fg with fid := 1 } else fg
            let fg := { fg with gen := vp.zp_gen }
            let q := zfsslash2_stat K E l.w vp stb
            out q.w (some vp) q.err q.val fg

/-- The function `zfsslash2_access`. -/
def zfsslash2_access (K : Consts) (E : Engine σ) (w : World σ) (ino : Nat) (mask : Nat) :
    Ret σ Unit :=
  let ino := if ino = 1 then 3 else ino
  let w := ZFS_ENTER w
  let r := zfs_zget E w ino true
  if r.err ≠ 0 then
    let w := ZFS_EXIT r.w
    ⟨zgetError r.err, (), w⟩
  else
    let vp := r.val
    let mode := 0
    let mode := if mask &&& K.R_OK ≠ 0 then mode ||| K.VREAD else mode
    let mode := if mask &&& K.W_OK ≠ 0 then mode ||| K.VWRITE else mode
    let mode := if mask &&& K.X_OK ≠ 0 then mode ||| K.VEXEC else mode
    let a := VOP_ACCESS E r.w vp mode
    let w := VN_RELE a.w vp
    let w := ZFS_EXIT w
    ⟨a.err, (), w⟩

/-- The call `VOP_READ(vp, &uio, flags, cred, NULL)` with `uio_resid = size` and
`uio_loffset = off`: the bytes the engine moves to the buffer of the `uio`. -/
def VOP_READ (E : Engine σ) (w : World σ) (vp : Vnode) (size : Nat) (off : Int) (flags : Nat) :
    Ret σ (List Nat) :=
  vopOut w Prim.READ vp [size, off, flags] (E.VOP_READ w.st vp size off flags)

/-- The call `VOP_WRITE(vp, &uio, flags, cred, NULL)` with the `uio` over the bytes
`bytes` and `uio_loffset = off`: the value of `uio_resid` after the call. -/
def VOP_WRITE (E : Engine σ) (w : World σ) (vp : Vnode) (bytes : List Nat) (off : Int)
    (flags : Nat) : Ret σ Nat :=
  vopOut w Prim.WRITE vp [bytes.length, off, flags] (E.VOP_WRITE w.st vp bytes off flags)

/-- The function `zfsslash2_read`. `outbuf` is the address `kmem_alloc(size, KM_NOSLEEP)`
returned, 0 for `NULL`; the `uio` is set up over `outbuf`, so the engine moves at most
`size` bytes there. The parameter `buf` is not used by the body (the reply call is
commented out). Output: the memory after the call. -/
def zfsslash2_read (E : Engine σ) (w : World σ) (m : Mem) (outbuf : Nat) (_ino : Nat)
    (_buf : Nat) (size : Nat) (off : Int) (info : file_info) : Ret σ Mem :=
  let vp := info.vp
  if outbuf = 0 then ⟨ENOMEM, m, w⟩
  else
    let w := ZFS_ENTER w
    let r := VOP_READ E w vp size off info.flags
    let m := writeBytes m outbuf (r.val.take size)
    let w := ZFS_EXIT r.w
    ⟨r.err, m, w⟩

/-- The function `zfsslash2_write`: the `uio` is set up over the `size` bytes at `buf`.
`VERIFY(uio.uio_resid == 0)` aborts when a successful write left bytes unwritten. -/
def zfsslash2_write (E : Engine σ) (w : World σ) (m : Mem) (_ino : Nat) (buf : Nat)
    (size : Nat) (off : Int) (info : file_info) : Option (Ret σ Unit) :=
  let vp := info.vp
  let w := ZFS_ENTER w
  let r := VOP_WRITE E w vp (readBytes m buf size) off info.flags
  let w := ZFS_EXIT r.w
  if r.err = 0 then
    if r.val = 0 then some ⟨r.err, (), w⟩ else none
  else some ⟨r.err, (), w⟩

/-! ## Reading the trace -/

/-- The ids handed to `zfs_zget`, in call order. -/
def zgetIds : List Ev → List Nat
  | [] => []
  | Ev.zget id _ _ :: t => id :: zgetIds t
  | _ :: t => zgetIds t

/-- Reference bookkeeping over a trace. `held` lists the references held, one
entry per reference. A successful `zfs_zget`, `VOP_LOOKUP`, `VOP_CREATE` or
`VOP_MKDIR` adds its vnode; `VN_RELE` removes one entry of its vnode and is an
error (`none`) when there is none. -/
def runRefs : List Vnode → List Ev → Option (List Vnode)
  | held, [] => some held
  | held, Ev.zget _ err vp :: t => runRefs (if err = 0 then vp :: held else held) t
  | held, Ev.vop _ _ _ _ (some vp) :: t => runRefs (vp :: held) t
  | held, Ev.rele vp :: t => if vp ∈ held then runRefs (held.erase vp) t else none
  | held, _ :: t => runRefs held t

/-- The world before an operation: engine state `s`, nothing called yet. -/
def World.init (s : σ) : World σ := ⟨s, []⟩

/-! ## A directory as the engine presents it, and engines for evaluation -/

/-- The entry `VOP_READDIR` hands out at cursor `next` in a directory given as
the sequence `d` of its native entries: the first entry whose own offset
`d_off` (the cursor just behind it) lies beyond `next`. -/
def dirRead (d : List Dirent) (next : Int) : Option Dirent :=
  d.find? (fun e => decide (next < e.d_off))

/-- An engine for evaluation: `zfs_zget` answers `zerr id` and hands out a
directory vnode with that id, removal of a name answers `rmerr`, the open
directory lists `d`, every other call succeeds. -/
def modelEngine (zerr : Nat → Int) (rmerr : Int) (d : List Dirent) : Engine Unit :=
  { zfs_zget := fun _ id _ => (zerr id, ⟨id, 7, vtype.VDIR⟩, ()),
    VOP_GETATTR := fun _ vp _ => (0, { Vattr.zero with va_nodeid := vp.z_id, va_type := vp.v_type }, ()),
    VOP_LOOKUP := fun _ _ _ => (0, ⟨9, 7, vtype.VREG⟩, ()),
    VOP_ACCESS := fun _ _ _ => (0, ()),
    VOP_OPEN := fun _ _ _ => (0, ()),
    VOP_CLOSE := fun _ _ _ => (0, ()),
    VOP_READDIR := fun _ _ next => (0, dirRead d next, ()),
    VOP_CREATE := fun _ _ _ _ _ _ => (0, ⟨9, 7, vtype.VREG⟩, ()),
    VOP_READLINK := fun _ _ _ => (0, [], ()),
    VOP_READ := fun _ _ _ _ _ => (0, [], ()),
    VOP_WRITE := fun _ _ _ _ _ => (0, 0, ()),
    VOP_MKDIR := fun _ _ _ _ => (0, ⟨9, 7, vtype.VDIR⟩, ()),
    VOP_RMDIR := fun _ _ _ => (rmerr, ()),
    VOP_SPACE := fun _ _ _ _ _ => (0, ()),
    VOP_SETATTR := fun _ _ _ _ => (0, ()),
    VOP_REMOVE := fun _ _ _ => (rmerr, ()),
    VOP_SYMLINK := fun _ _ _ _ _ => (0, ()),
    VOP_RENAME := fun _ _ _ _ _ => (0, ()),
    VOP_LINK := fun _ _ _ _ => (0, ()),
    VOP_FSYNC := fun _ _ _ => (0, ()),
    kmem_cache_alloc := fun _ => (true, ()) }

/-- What an operation does when its resolve of `id` fails with `e`: it returns
`ENOENT` for `EEXIST` and `e` otherwise, and between the fences it has made no
call but that `zfs_zget`. -/
def ResolveFailed {α : Type} (r : Ret σ α) (id : Nat) (e : Int) (v : Vnode) : Prop :=
  r.err = (if e = EEXIST then ENOENT else e) ∧
  r.w.trace = [Ev.enter, Ev.zget id e v, Ev.exit]

/-- What a two-object operation does when its first resolve hands out `v1` and
its second resolve, of `id2`, fails with `e`: it returns `ENOENT` for `EEXIST`
and `e` otherwise, and after the failed `zfs_zget` it only releases `v1`. -/
def SecondResolveFailed {α : Type} (r : Ret σ α) (id1 : Nat) (v1 : Vnode) (id2 : Nat) (e : Int)
    (v : Vnode) : Prop :=
  r.err = (if e = EEXIST then ENOENT else e) ∧
  r.w.trace = [Ev.enter, Ev.zget id1 0 v1, Ev.zget id2 e v, Ev.rele v1, Ev.exit]

/-! ## The record layout and the listing client, as the specification words them -/

/-- The record of the specification for one entry: 8-byte object id, 8-byte next
offset, 4-byte name length, 4-byte type tag `(st_mode & 0170000) >> 12`, the
name bytes, zero padding up to `fuse_dirent_size`. -/
def dirRecord (st_ino : Nat) (off : Int) (st_mode : Nat) (name : List Nat) : List Nat :=
  leBytes 8 st_ino ++ leBytes 8 (toU64 off) ++ leBytes 4 name.length ++
    leBytes 4 ((st_mode &&& 0o170000) >>> 12) ++ name ++
    List.replicate (fuse_dirent_size name.length - 24 - name.length) 0

/-- Size of the record of a native entry. -/
def recSize (e : Dirent) : Nat := fuse_dirent_size e.d_name.length

/-- The record `zfsslash2_readdir` emits for a native entry: `st_ino = d_ino`,
`st_mode = 0`, next offset `d_off`. -/
def entryRecord (e : Dirent) : List Nat := dirRecord e.d_ino e.d_off 0 e.d_name

/-- The entries of the directory `d` from the cursor `next` on. -/
def entriesFrom (d : List Dirent) (next : Int) : List Dirent :=
  d.dropWhile (fun e => decide (e.d_off ≤ next))

/-- The longest prefix of `es` whose records together fit in `cap` bytes. -/
def fitPrefix : Nat → List Dirent → List Dirent
  | _, [] => []
  | cap, e :: es => if recSize e ≤ cap then e :: fitPrefix (cap - recSize e) es else []

/-- The records of a list of entries, one after the other. -/
def packed (es : List Dirent) : List Nat := (es.map entryRecord).flatten

/-- A directory whose native offsets advance strictly from 0 and whose entries
are values of `struct dirent64`: 64-bit object id, `off_t` offset, name shorter
than `MAXNAMELEN`. -/
def DirOK (d : List Dirent) : Prop :=
  d.Pairwise (fun a b => a.d_off < b.d_off) ∧
  ∀ e ∈ d, 0 < e.d_off ∧ e.d_off < 2 ^ 63 ∧ e.d_ino < 2 ^ 64 ∧ e.d_name.length < MAXNAMELEN

/-- The reader of a returned buffer on the client side of the listing protocol
(specification, binary directory record layout): it takes the records one
after the other (object id, next offset, name; each record `fuse_dirent_size`
of its name length long). The first argument bounds the number of records. -/
def parseRecords : Nat → List Nat → List Dirent
  | 0, _ => []
  | fuel + 1, bytes =>
    if bytes.length < FUSE_NAME_OFFSET then []
    else
      let namelen := leVal ((bytes.drop 16).take 4)
      { d_ino := leVal (bytes.take 8),
        d_off := toInt64 (leVal ((bytes.drop 8).take 8)),
        d_name := (bytes.drop FUSE_NAME_OFFSET).take namelen } ::
        parseRecords fuel (bytes.drop (fuse_dirent_size namelen))

/-- The client of the specification's pagination property: it lists a directory
by repeated `zfsslash2_readdir` calls on one open handle, the `k`-th call with
capacity `caps k`, starting at `cursor` and resuming each call at the
next-offset field of the last record of the previous call, until a call
returns 0 bytes. It returns the entries read and the byte count of every call;
`none` when a call fails or the bound on the number of calls is reached. -/
def listDir (E : Engine σ) (data : file_info) (caps : Nat → Nat) (outbuf : Nat) :
    Nat → Nat → σ → Mem → Int → Option (List Dirent × List Nat)
  | 0, _, _, _, _ => none
  | fuel + 1, k, s, m, cursor =>
    match zfsslash2_readdir E (World.init s) data.vp.z_id (caps k) cursor outbuf m 0 data with
    | none => none
    | some r =>
      if r.err ≠ 0 then none
      else if r.outbuf_len = 0 then some ([], [0])
      else
        let recs := parseRecords r.outbuf_len (readBytes r.mem outbuf r.outbuf_len)
        match recs.getLast? with
        | none => none
        | some last =>
          match listDir E data caps outbuf fuel (k + 1) r.w.st r.mem last.d_off with
          | none => none
          | some (es, lens) => some (recs ++ es, r.outbuf_len :: lens)

/-- Every call's capacity fits at least the next record: the `k`-th call, with
the entries `es` still to be listed, has room for the first of them; the call
after it is left with what the `k`-th call could not fit. -/
def FitsNext (caps : Nat → Nat) : Nat → Nat → List Dirent → Prop
  | 0, _, _ => True
  | _ + 1, _, [] => True
  | fuel + 1, k, e :: es =>
    recSize e ≤ caps k ∧
      FitsNext caps fuel (k + 1) (es.drop (fitPrefix (caps k - recSize e) es).length)

/-- A root directory for evaluation: `.` and `..` both with the engine root id
3, and one file. -/
def rootDir : List Dirent := [⟨3, 1, [46]⟩, ⟨3, 2, [46, 46]⟩, ⟨9, 3, [102]⟩]

/-- An open handle on the root directory, for evaluation. -/
def rootHandle : file_info := ⟨⟨3, 7, vtype.VDIR⟩, 1⟩


/-! ## Reading calls off the trace, and further engines for evaluation -/

/-- The argument lists of the calls of the primitive `p`, in call order. -/
def primCalls (p : Prim) : List Ev → List (List Int)
  | [] => []
  | Ev.vop q _ args _ _ :: t => if q = p then args :: primCalls p t else primCalls p t
  | _ :: t => primCalls p t

/-- An engine for evaluation whose symbolic links all have the target `target`:
`VOP_READLINK` moves the first `uio_resid` bytes of it; `VOP_SPACE` answers
`sperr`; the rest is `modelEngine` with every resolve succeeding. -/
def linkEngine (target : List Nat) (sperr : Int) : Engine Unit :=
  { modelEngine (fun _ => 0) 0 [] with
    VOP_READLINK := fun _ _ len => (0, target.take len, ()),
    VOP_SPACE := fun _ _ _ _ _ => (sperr, ()) }

/-- An engine for evaluation whose state is the content of the one regular file, a byte
store: `VOP_WRITE` stores all the bytes at the offset and leaves no residue, `VOP_READ`
hands out the `size` bytes stored from the offset; every other call succeeds. -/
def storeEngine : Engine Mem :=
  { zfs_zget := fun s id _ => (0, ⟨id, 7, vtype.VREG⟩, s),
    VOP_GETATTR := fun s vp _ => (0, { Vattr.zero with va_nodeid := vp.z_id, va_type := vp.v_type }, s),
    VOP_LOOKUP := fun s _ _ => (0, ⟨9, 7, vtype.VREG⟩, s),
    VOP_ACCESS := fun s _ _ => (0, s),
    VOP_OPEN := fun s _ _ => (0, s),
    VOP_CLOSE := fun s _ _ => (0, s),
    VOP_READDIR := fun s _ _ => (0, none, s),
    VOP_CREATE := fun s _ _ _ _ _ => (0, ⟨9, 7, vtype.VREG⟩, s),
    VOP_READLINK := fun s _ _ => (0, [], s),
    VOP_READ := fun s _ size off _ => (0, readBytes s off.toNat size, s),
    VOP_WRITE := fun s _ bytes off _ => (0, 0, writeBytes s off.toNat bytes),
    VOP_MKDIR := fun s _ _ _ => (0, ⟨9, 7, vtype.VDIR⟩, s),
    VOP_RMDIR := fun s _ _ => (0, s),
    VOP_SPACE := fun s _ _ _ _ => (0, s),
    VOP_SETATTR := fun s _ _ _ => (0, s),
    VOP_REMOVE := fun s _ _ => (0, s),
    VOP_SYMLINK := fun s _ _ _ _ => (0, s),
    VOP_RENAME := fun s _ _ _ _ => (0, s),
    VOP_LINK := fun s _ _ _ => (0, s),
    VOP_FSYNC := fun s _ _ => (0, s),
    kmem_cache_alloc := fun s => (true, s) }

/-- The handle of the regular file with id 9, open for reading and writing. -/
def fileHandle : file_info := ⟨⟨9, 7, vtype.VREG⟩, solarisConsts.FREAD ||| solarisConsts.FWRITE⟩

/-- The bytes of `hello`. -/
def hello : List Nat := [104, 101, 108, 108, 111]

/-! ## Handle issuance, as the specification words it -/

section calls
variable {σ : Type}

@[simp] theorem zgetIds_append (a b : List Ev) : zgetIds (a ++ b) = zgetIds a ++ zgetIds b := by
  induction a with
  | nil => rfl
  | cons e t ih => cases e <;> simp [zgetIds, ih]

/-- The attribute mask of `zfsslash2_stat`. -/
theorem stat_w (K : Consts) (E : Engine σ) (w : World σ) (vp : Vnode) (stb : Stat) :
    (zfsslash2_stat K E w vp stb).w =
      (VOP_GETATTR E w vp (K.AT_STAT ||| K.AT_NBLOCKS ||| K.AT_BLKSIZE ||| K.AT_SIZE)).w := by
  unfold zfsslash2_stat
  by_cases h : (VOP_GETATTR E w vp
      (K.AT_STAT ||| K.AT_NBLOCKS ||| K.AT_BLKSIZE ||| K.AT_SIZE)).err = 0 <;> simp [h]

theorem stat_err (K : Consts) (E : Engine σ) (w : World σ) (vp : Vnode) (stb : Stat) :
    (zfsslash2_stat K E w vp stb).err =
      (VOP_GETATTR E w vp (K.AT_STAT ||| K.AT_NBLOCKS ||| K.AT_BLKSIZE ||| K.AT_SIZE)).err := by
  unfold zfsslash2_stat
  by_cases h : (VOP_GETATTR E w vp
      (K.AT_STAT ||| K.AT_NBLOCKS ||| K.AT_BLKSIZE ||| K.AT_SIZE)).err = 0 <;> simp [h]

end calls

section refs
variable {σ : Type}

theorem runRefs_append (a b : List Ev) (H : List Vnode) :
    runRefs H (a ++ b) = (runRefs H a).bind (fun G => runRefs G b) := by
  induction a generalizing H with
  | nil => simp [runRefs]
  | cons e t ih =>
    cases e with
    | vop p tgt args err out => cases out <;> simp [runRefs, ih]
    | rele vp => by_cases h : vp ∈ H <;> simp [runRefs, ih, h]
    | _ => simp [runRefs, ih]

theorem erase_pair_snd (a b : Vnode) : [a, b].erase b = [a] := by
  by_cases h : a = b
  · subst h; simp
  · simp [List.erase_cons, h]

@[simp] theorem zgetError_eq_zero (e : Int) : zgetError e = 0 ↔ e = 0 := by
  unfold zgetError ENOENT EEXIST
  split_ifs with h
  · subst h; simp
  · rfl

theorem refs_getattr (K : Consts) (E : Engine σ) (s : σ) (ino : Nat) (stbuf : Stat) :
    runRefs [] (zfsslash2_getattr K E (World.init s) ino stbuf).w.trace = some [] := by
  unfold zfsslash2_getattr
  generalize (if ino = 1 then 3 else ino) = i
  simp only [stat_w, stat_err]
  split_ifs <;>
    simp_all [zfs_zget, ZFS_ENTER, ZFS_EXIT, VN_RELE, World.log, World.init, VOP_GETATTR, vopOut,
      runRefs]

theorem refs_lookup (K : Consts) (E : Engine σ) (s : σ) (parent : Nat) (name : List Nat)
    (stb : Stat) :
    runRefs [] (zfsslash2_lookup K E (World.init s) parent name stb).w.trace = some [] := by
  unfold zfsslash2_lookup
  generalize (if parent = 1 then 3 else parent) = i
  simp only [stat_w, stat_err]
  split_ifs <;>
    simp_all [zfs_zget, ZFS_ENTER, ZFS_EXIT, VN_RELE, World.log, World.init, VOP_GETATTR, vopOut,
      VOP_LOOKUP, vopNew, runRefs]

theorem refs_opendir (K : Consts) (E : Engine σ) (s : σ) (ino : Nat) (fg : fidgen)
    (priv : Option file_info) :
    ((zfsslash2_opendir K E (World.init s) ino fg priv).err ≠ 0 →
      runRefs [] (zfsslash2_opendir K E (World.init s) ino fg priv).w.trace = some []) ∧
    ((zfsslash2_opendir K E (World.init s) ino fg priv).err = 0 →
      ∃ info, (zfsslash2_opendir K E (World.init s) ino fg priv).val.2 = some info ∧
        runRefs [] (zfsslash2_opendir K E (World.init s) ino fg priv).w.trace = some [info.vp]) := by
  unfold zfsslash2_opendir
  generalize (if ino = 1 then 3 else ino) = i
  simp only []
  split_ifs <;>
    simp_all [zfs_zget, ZFS_ENTER, ZFS_EXIT, VN_RELE, World.log, World.init, VOP_ACCESS, VOP_OPEN,
      vopCall, kmem_cache_alloc, runRefs, ENOTDIR, ENOMEM]

theorem refs_release (E : Engine σ) (s : σ) (ino : Nat) (info : file_info)
    (h : (E.VOP_CLOSE s info.vp info.flags).1 = 0) :
    ∃ r, zfsslash2_release E (World.init s) ino info = some r ∧ r.err = 0 ∧
      runRefs [info.vp] r.w.trace = some [] := by
  simp [zfsslash2_release, ZFS_ENTER, ZFS_EXIT, VN_RELE, World.log, World.init, VOP_CLOSE,
    vopCall, kmem_cache_free, runRefs, h]

theorem refs_opencreate_open (K : Consts) (E : Engine σ) (flags : Nat) (o : OpenOut)
    (w : World σ) (vp : Vnode) (hw : runRefs [] w.trace = some [vp]) :
    ((zfsslash2_opencreate_open K E flags o w vp).err ≠ 0 →
      runRefs [] (zfsslash2_opencreate_open K E flags o w vp).w.trace = some []) ∧
    ((zfsslash2_opencreate_open K E flags o w vp).err = 0 →
      ∃ info, (zfsslash2_opencreate_open K E flags o w vp).val.priv = some info ∧
        runRefs [] (zfsslash2_opencreate_open K E flags o w vp).w.trace = some [info.vp]) := by
  unfold zfsslash2_opencreate_open zfsslash2_opencreate_out
  simp only [stat_w, stat_err]
  split_ifs <;>
    simp_all [ZFS_EXIT, VN_RELE, World.log, VOP_OPEN, VOP_GETATTR, vopOut,
      vopCall, kmem_cache_alloc, runRefs, runRefs_append, ELOOP, ENOMEM]

theorem refs_opencreate (K : Consts) (E : Engine σ) (s : σ) (ino fflags createmode : Nat)
    (name : Option (List Nat)) (o : OpenOut) :
    ((zfsslash2_opencreate K E (World.init s) ino fflags createmode name o).err ≠ 0 →
      runRefs [] (zfsslash2_opencreate K E (World.init s) ino fflags createmode name o).w.trace
        = some []) ∧
    ((zfsslash2_opencreate K E (World.init s) ino fflags createmode name o).err = 0 →
      ∃ info, (zfsslash2_opencreate K E (World.init s) ino fflags createmode name o).val.priv
          = some info ∧
        runRefs [] (zfsslash2_opencreate K E (World.init s) ino fflags createmode name o).w.trace
          = some [info.vp]) := by
  unfold zfsslash2_opencreate
  generalize (if ino = 1 then 3 else ino) = i
  generalize createVattr K createmode (openFlags K fflags) = va
  generalize openFlags K fflags = fl
  generalize openMode K fflags = md
  simp only []
  split_ifs
  all_goals first
    | (apply refs_opencreate_open
       simp_all [zfs_zget, ZFS_ENTER, ZFS_EXIT, VN_RELE, World.log, World.init, VOP_GETATTR,
        vopOut, vopCall, vopNew, VOP_CREATE, VOP_ACCESS, runRefs, erase_pair_snd])
    | (simp_all [zfsslash2_opencreate_out, zfs_zget, ZFS_ENTER, ZFS_EXIT, VN_RELE, World.log,
        World.init, VOP_GETATTR, vopOut, vopCall, vopNew, VOP_CREATE, VOP_ACCESS, runRefs,
        ENAMETOOLONG, EOVERFLOW])

theorem refs_readlink (K : Consts) (E : Engine σ) (s : σ) (ino buf : Nat) (m : Mem)
    (hk : 0 < K.sizeof_charp) :
    ∃ r, zfsslash2_readlink K E (World.init s) ino buf m = some r ∧
      runRefs [] r.w.trace = some [] := by
  unfold zfsslash2_readlink
  generalize (if ino = 1 then 3 else ino) = i
  have hlen : ∀ l : List Nat, (l.take (K.sizeof_charp - 1)).length < K.sizeof_charp := by
    intro l
    have := List.length_take_le (K.sizeof_charp - 1) l
    omega
  simp only []
  split_ifs <;>
    simp_all [zfs_zget, ZFS_ENTER, ZFS_EXIT, VN_RELE, World.log, World.init, VOP_READLINK, vopOut,
      runRefs]

theorem refs_mkdir (K : Consts) (E : Engine σ) (s : σ) (uninit parent : Nat) (name : List Nat)
    (mode : Nat) (stb : Stat) (fg : fidgen) :
    runRefs [] (zfsslash2_mkdir K E (World.init s) uninit parent name mode stb fg).w.trace
      = some [] := by
  unfold zfsslash2_mkdir
  generalize (if uninit = 1 then 3 else parent) = i
  simp only [stat_w, stat_err]
  split_ifs <;>
    simp_all [zfs_zget, ZFS_ENTER, ZFS_EXIT, VN_RELE, World.log, World.init, VOP_GETATTR, vopOut,
      VOP_MKDIR, vopNew, runRefs]

theorem refs_rmdir (E : Engine σ) (s : σ) (uninit parent : Nat) (name : List Nat) :
    runRefs [] (zfsslash2_rmdir E (World.init s) uninit parent name).w.trace = some [] := by
  unfold zfsslash2_rmdir
  generalize (if uninit = 1 then 3 else parent) = i
  simp only []
  split_ifs <;>
    simp_all [zfs_zget, ZFS_ENTER, ZFS_EXIT, VN_RELE, World.log, World.init, VOP_RMDIR, vopCall,
      runRefs]

theorem refs_unlink (E : Engine σ) (s : σ) (uninit parent : Nat) (name : List Nat) :
    runRefs [] (zfsslash2_unlink E (World.init s) uninit parent name).w.trace = some [] := by
  unfold zfsslash2_unlink
  generalize (if uninit = 1 then 3 else parent) = i
  simp only []
  split_ifs <;>
    simp_all [zfs_zget, ZFS_ENTER, ZFS_EXIT, VN_RELE, World.log, World.init, VOP_REMOVE, vopCall,
      runRefs]

theorem refs_setattr (K : Consts) (E : Engine σ) (s : σ) (uninit ino : Nat) (attr : Stat)
    (to_set : Nat) (out_attr : Stat) (data : Option file_info) :
    runRefs [] (zfsslash2_setattr K E (World.init s) uninit ino attr to_set out_attr data).w.trace
      = some [] := by
  unfold zfsslash2_setattr
  generalize (if uninit = 1 then 3 else ino) = i
  cases data with
  | none =>
    simp only [stat_w, stat_err, apply_ite Ret.w, apply_ite Ret.err]
    split_ifs <;>
      simp_all [zfs_zget, ZFS_ENTER, ZFS_EXIT, VN_RELE, World.log, World.init, VOP_GETATTR, vopOut,
        VOP_SETATTR, vopCall, runRefs]
  | some info =>
    simp only [stat_w, stat_err, apply_ite Ret.w, apply_ite Ret.err]
    split_ifs <;>
      simp_all [zfs_zget, ZFS_ENTER, ZFS_EXIT, VN_RELE, World.log, World.init, VOP_GETATTR, vopOut,
        VOP_SETATTR, VOP_SPACE, vopCall, runRefs, EBADF, EINVAL]

theorem refs_symlink (K : Consts) (E : Engine σ) (s : σ) (link : List Nat) (parent : Nat)
    (name : List Nat) (stb : Stat) (fg : fidgen) :
    runRefs [] (zfsslash2_symlink K E (World.init s) link parent name stb fg).w.trace
      = some [] := by
  unfold zfsslash2_symlink
  generalize (if parent = 1 then 3 else parent) = i
  simp only [stat_w, stat_err]
  split_ifs <;>
    simp_all [zfs_zget, ZFS_ENTER, ZFS_EXIT, VN_RELE, World.log, World.init, VOP_GETATTR, vopOut,
      VOP_SYMLINK, VOP_LOOKUP, vopNew, vopCall, runRefs]

theorem refs_rename (E : Engine σ) (s : σ) (parent : Nat) (name : List Nat) (newparent : Nat)
    (newname : List Nat) :
    runRefs [] (zfsslash2_rename E (World.init s) parent name newparent newname).w.trace
      = some [] := by
  unfold zfsslash2_rename
  generalize (if parent = 1 then 3 else parent) = i
  simp only []
  split_ifs <;>
    simp_all [zfs_zget, ZFS_ENTER, ZFS_EXIT, VN_RELE, World.log, World.init, VOP_RENAME, vopCall,
      runRefs, erase_pair_snd]

theorem refs_link (K : Consts) (E : Engine σ) (s : σ) (ino newparent : Nat)
    (newname : List Nat) (fg : fidgen) (stb : Stat) :
    runRefs [] (zfsslash2_link K E (World.init s) ino newparent newname fg stb).w.trace
      = some [] := by
  unfold zfsslash2_link
  generalize (if ino = 1 then 3 else ino) = i
  generalize (if newparent = 1 then 3 else newparent) = j
  simp only [stat_w, stat_err]
  split_ifs <;>
    simp_all [zfs_zget, ZFS_ENTER, ZFS_EXIT, VN_RELE, World.log, World.init, VOP_GETATTR, vopOut,
      VOP_LINK, VOP_LOOKUP, vopNew, vopCall, runRefs]

theorem refs_access (K : Consts) (E : Engine σ) (s : σ) (ino mask : Nat) :
    runRefs [] (zfsslash2_access K E (World.init s) ino mask).w.trace = some [] := by
  unfold zfsslash2_access
  generalize (if ino = 1 then 3 else ino) = i
  simp only []
  generalize (if mask &&& K.X_OK ≠ 0 then _ else _ : Nat) = md
  split_ifs <;>
    simp_all [zfs_zget, ZFS_ENTER, ZFS_EXIT, VN_RELE, World.log, World.init, VOP_ACCESS, vopCall,
      runRefs]

end refs

section resolve
variable {σ : Type}

theorem fail_getattr (K : Consts) (E : Engine σ) (s s' : σ) (e : Int) (v : Vnode) (he : e ≠ 0)
    (ino : Nat) (stbuf : Stat) (hz : E.zfs_zget s (toInternal ino) true = (e, v, s')) :
    ResolveFailed (zfsslash2_getattr K E (World.init s) ino stbuf) (toInternal ino) e v := by
  unfold toInternal at hz
  simp [ResolveFailed, zfsslash2_getattr, zfs_zget, ZFS_ENTER, ZFS_EXIT, World.log, World.init,
    hz, he, zgetError, toInternal]

theorem fail_lookup (K : Consts) (E : Engine σ) (s s' : σ) (e : Int) (v : Vnode) (he : e ≠ 0)
    (parent : Nat) (name : List Nat) (stb : Stat) (hn : name.length < MAXNAMELEN)
    (hz : E.zfs_zget s (toInternal parent) true = (e, v, s')) :
    ResolveFailed (zfsslash2_lookup K E (World.init s) parent name stb) (toInternal parent) e v := by
  unfold toInternal at hz
  simp [ResolveFailed, zfsslash2_lookup, zfs_zget, ZFS_ENTER, ZFS_EXIT, World.log, World.init,
    hz, he, Nat.not_le.mpr hn, zgetError, toInternal]

theorem fail_opendir (K : Consts) (E : Engine σ) (s s' : σ) (e : Int) (v : Vnode) (he : e ≠ 0)
    (ino : Nat) (fg : fidgen) (priv : Option file_info)
    (hz : E.zfs_zget s (toInternal ino) true = (e, v, s')) :
    ResolveFailed (zfsslash2_opendir K E (World.init s) ino fg priv) (toInternal ino) e v := by
  unfold toInternal at hz
  simp [ResolveFailed, zfsslash2_opendir, zfs_zget, ZFS_ENTER, ZFS_EXIT, World.log, World.init,
    hz, he, zgetError, toInternal]

theorem fail_opencreate (K : Consts) (E : Engine σ) (s s' : σ) (e : Int) (v : Vnode) (he : e ≠ 0)
    (ino fflags createmode : Nat) (name : Option (List Nat)) (o : OpenOut)
    (hn : ∀ n, name = some n → n.length < MAXNAMELEN)
    (hz : E.zfs_zget s (toInternal ino) false = (e, v, s')) :
    ResolveFailed (zfsslash2_opencreate K E (World.init s) ino fflags createmode name o)
      (toInternal ino) e v := by
  unfold toInternal at hz
  cases name with
  | none =>
    simp [ResolveFailed, zfsslash2_opencreate, zfs_zget, ZFS_ENTER, ZFS_EXIT, World.log,
      World.init, hz, he, zgetError, toInternal]
  | some n =>
    simp [ResolveFailed, zfsslash2_opencreate, zfs_zget, ZFS_ENTER, ZFS_EXIT, World.log,
      World.init, hz, he, Nat.not_le.mpr (hn n rfl), zgetError, toInternal]

theorem fail_readlink (K : Consts) (E : Engine σ) (s s' : σ) (e : Int) (v : Vnode) (he : e ≠ 0)
    (ino buf : Nat) (m : Mem) (hz : E.zfs_zget s (toInternal ino) false = (e, v, s')) :
    ∃ r, zfsslash2_readlink K E (World.init s) ino buf m = some r ∧
      ResolveFailed r (toInternal ino) e v := by
  unfold toInternal at hz
  simp [ResolveFailed, zfsslash2_readlink, zfs_zget, ZFS_ENTER, ZFS_EXIT, World.log, World.init,
    hz, he, zgetError, toInternal]

theorem fail_mkdir (K : Consts) (E : Engine σ) (s s' : σ) (e : Int) (v : Vnode) (he : e ≠ 0)
    (uninit parent : Nat) (name : List Nat) (mode : Nat) (stb : Stat) (fg : fidgen)
    (hn : name.length < MAXNAMELEN)
    (hz : E.zfs_zget s (if uninit = 1 then 3 else parent) false = (e, v, s')) :
    ResolveFailed (zfsslash2_mkdir K E (World.init s) uninit parent name mode stb fg)
      (if uninit = 1 then 3 else parent) e v := by
  simp [ResolveFailed, zfsslash2_mkdir, zfs_zget, ZFS_ENTER, ZFS_EXIT, World.log, World.init,
    hz, he, Nat.not_le.mpr hn, zgetError]

theorem fail_rmdir (E : Engine σ) (s s' : σ) (e : Int) (v : Vnode) (he : e ≠ 0)
    (uninit parent : Nat) (name : List Nat) (hn : name.length < MAXNAMELEN)
    (hz : E.zfs_zget s (if uninit = 1 then 3 else parent) false = (e, v, s')) :
    ResolveFailed (zfsslash2_rmdir E (World.init s) uninit parent name)
      (if uninit = 1 then 3 else parent) e v := by
  simp [ResolveFailed, zfsslash2_rmdir, zfs_zget, ZFS_ENTER, ZFS_EXIT, World.log, World.init,
    hz, he, Nat.not_le.mpr hn, zgetError]

theorem fail_setattr (K : Consts) (E : Engine σ) (s s' : σ) (e : Int) (v : Vnode) (he : e ≠ 0)
    (uninit ino : Nat) (attr : Stat) (to_set : Nat) (out_attr : Stat)
    (hz : E.zfs_zget s (if uninit = 1 then 3 else ino) true = (e, v, s')) :
    ResolveFailed (zfsslash2_setattr K E (World.init s) uninit ino attr to_set out_attr none)
      (if uninit = 1 then 3 else ino) e v := by
  simp [ResolveFailed, zfsslash2_setattr, zfs_zget, ZFS_ENTER, ZFS_EXIT, World.log, World.init,
    hz, he, zgetError]

theorem fail_unlink (E : Engine σ) (s s' : σ) (e : Int) (v : Vnode) (he : e ≠ 0)
    (uninit parent : Nat) (name : List Nat) (hn : name.length < MAXNAMELEN)
    (hz : E.zfs_zget s (if uninit = 1 then 3 else parent) false = (e, v, s')) :
    ResolveFailed (zfsslash2_unlink E (World.init s) uninit parent name)
      (if uninit = 1 then 3 else parent) e v := by
  simp [ResolveFailed, zfsslash2_unlink, zfs_zget, ZFS_ENTER, ZFS_EXIT, World.log, World.init,
    hz, he, Nat.not_le.mpr hn, zgetError]

theorem fail_symlink (K : Consts) (E : Engine σ) (s s' : σ) (e : Int) (v : Vnode) (he : e ≠ 0)
    (link : List Nat) (parent : Nat) (name : List Nat) (stb : Stat) (fg : fidgen)
    (hn : name.length < MAXNAMELEN)
    (hz : E.zfs_zget s (toInternal parent) false = (e, v, s')) :
    ResolveFailed (zfsslash2_symlink K E (World.init s) link parent name stb fg)
      (toInternal parent) e v := by
  unfold toInternal at hz
  simp [ResolveFailed, zfsslash2_symlink, zfs_zget, ZFS_ENTER, ZFS_EXIT, World.log, World.init,
    hz, he, Nat.not_le.mpr hn, zgetError, toInternal]

theorem fail_rename (E : Engine σ) (s s' : σ) (e : Int) (v : Vnode) (he : e ≠ 0)
    (parent : Nat) (name : List Nat) (newparent : Nat) (newname : List Nat)
    (hn : name.length < MAXNAMELEN) (hm : newname.length < MAXNAMELEN)
    (hz : E.zfs_zget s (toInternal parent) false = (e, v, s')) :
    ResolveFailed (zfsslash2_rename E (World.init s) parent name newparent newname)
      (toInternal parent) e v := by
  unfold toInternal at hz
  simp [ResolveFailed, zfsslash2_rename, zfs_zget, ZFS_ENTER, ZFS_EXIT, World.log, World.init,
    hz, he, Nat.not_le.mpr hn, Nat.not_le.mpr hm, zgetError, toInternal]

theorem fail_rename_second (E : Engine σ) (s s1 s' : σ) (e : Int) (v1 v : Vnode) (he : e ≠ 0)
    (parent : Nat) (name : List Nat) (newparent : Nat) (newname : List Nat)
    (hn : name.length < MAXNAMELEN) (hm : newname.length < MAXNAMELEN)
    (hz1 : E.zfs_zget s (toInternal parent) false = (0, v1, s1))
    (hz : E.zfs_zget s1 newparent false = (e, v, s')) :
    SecondResolveFailed (zfsslash2_rename E (World.init s) parent name newparent newname)
      (toInternal parent) v1 newparent e v := by
  unfold toInternal at hz1
  simp [SecondResolveFailed, zfsslash2_rename, zfs_zget, ZFS_ENTER, ZFS_EXIT, VN_RELE, World.log,
    World.init, hz, hz1, he, Nat.not_le.mpr hn, Nat.not_le.mpr hm, zgetError, toInternal]

theorem fail_link (K : Consts) (E : Engine σ) (s s' : σ) (e : Int) (v : Vnode) (he : e ≠ 0)
    (ino newparent : Nat) (newname : List Nat) (fg : fidgen) (stb : Stat)
    (hm : newname.length < MAXNAMELEN)
    (hz : E.zfs_zget s (toInternal ino) false = (e, v, s')) :
    ResolveFailed (zfsslash2_link K E (World.init s) ino newparent newname fg stb)
      (toInternal ino) e v := by
  unfold toInternal at hz
  simp [ResolveFailed, zfsslash2_link, zfs_zget, ZFS_ENTER, ZFS_EXIT, World.log, World.init,
    hz, he, Nat.not_le.mpr hm, zgetError, toInternal]

theorem fail_link_second (K : Consts) (E : Engine σ) (s s1 s' : σ) (e : Int) (v1 v : Vnode)
    (he : e ≠ 0) (ino newparent : Nat) (newname : List Nat) (fg : fidgen) (stb : Stat)
    (hm : newname.length < MAXNAMELEN)
    (hz1 : E.zfs_zget s (toInternal ino) false = (0, v1, s1))
    (hz : E.zfs_zget s1 (toInternal newparent) false = (e, v, s')) :
    SecondResolveFailed (zfsslash2_link K E (World.init s) ino newparent newname fg stb)
      (toInternal ino) v1 (toInternal newparent) e v := by
  unfold toInternal at hz1 hz
  simp [SecondResolveFailed, zfsslash2_link, zfs_zget, ZFS_ENTER, ZFS_EXIT, VN_RELE, World.log,
    World.init, hz, hz1, he, Nat.not_le.mpr hm, zgetError, toInternal]

theorem fail_access (K : Consts) (E : Engine σ) (s s' : σ) (e : Int) (v : Vnode) (he : e ≠ 0)
    (ino mask : Nat) (hz : E.zfs_zget s (toInternal ino) true = (e, v, s')) :
    ResolveFailed (zfsslash2_access K E (World.init s) ino mask) (toInternal ino) e v := by
  unfold toInternal at hz
  simp [ResolveFailed, zfsslash2_access, zfs_zget, ZFS_ENTER, ZFS_EXIT, World.log, World.init,
    hz, he, zgetError, toInternal]

end resolve

section bytes

theorem leBytes_length (w v : Nat) : (leBytes w v).length = w := by
  induction w generalizing v with
  | zero => rfl
  | succ w ih => simp [leBytes, ih]

theorem leVal_leBytes (w v : Nat) : leVal (leBytes w v) = v % 256 ^ w := by
  induction w generalizing v with
  | zero => simp [leBytes, leVal, Nat.mod_one]
  | succ w ih =>
    simp only [leBytes, leVal, ih]
    rw [pow_succ, Nat.mul_comm (256 ^ w) 256, Nat.mod_mul]

theorem land_mask8 (x : Nat) (hx : x < 2 ^ 64) : x &&& (2 ^ 64 - 8) = x / 8 * 8 := by
  have h0 : (x &&& (2 ^ 64 - 8)) % 2 ≠ 1 := by
    rw [Ne, Nat.and_mod_two_eq_one]; norm_num
  have d1 : (x &&& (2 ^ 64 - 8)) / 2 = x / 2 &&& (2 ^ 63 - 4) := by
    rw [Nat.and_div_two]; norm_num
  have h1 : (x / 2 &&& (2 ^ 63 - 4)) % 2 ≠ 1 := by
    rw [Ne, Nat.and_mod_two_eq_one]; norm_num
  have d2 : (x / 2 &&& (2 ^ 63 - 4)) / 2 = x / 2 / 2 &&& (2 ^ 62 - 2) := by
    rw [Nat.and_div_two]; norm_num
  have h2 : (x / 2 / 2 &&& (2 ^ 62 - 2)) % 2 ≠ 1 := by
    rw [Ne, Nat.and_mod_two_eq_one]; norm_num
  have d3 : (x / 2 / 2 &&& (2 ^ 62 - 2)) / 2 = x / 2 / 2 / 2 &&& (2 ^ 61 - 1) := by
    rw [Nat.and_div_two]; norm_num
  have h3 : x / 2 / 2 / 2 &&& (2 ^ 61 - 1) = x / 2 / 2 / 2 := by
    apply Nat.and_pow_two_sub_one_of_lt_two_pow
    omega
  omega

theorem fuse_dirent_size_eq (n : Nat) (h : n + 31 < 2 ^ 64) :
    fuse_dirent_size n = (n + 31) / 8 * 8 := by
  unfold fuse_dirent_size FUSE_DIRENT_ALIGN FUSE_NAME_OFFSET
  have e1 : (24 + n) % 2 ^ 64 = 24 + n := Nat.mod_eq_of_lt (by omega)
  have e2 : (24 + n + 8 - 1) % 2 ^ 64 = n + 31 := by
    rw [Nat.mod_eq_of_lt (by omega)]; omega
  rw [e1, e2, land_mask8 _ h]

theorem writeBytes_nil (m : Mem) (a : Nat) : writeBytes m a [] = m := by
  funext x
  simp [writeBytes]

theorem writeBytes_outside (m : Mem) (a : Nat) (bs : List Nat) (x : Nat)
    (h : x < a ∨ a + bs.length ≤ x) : writeBytes m a bs x = m x := by
  unfold writeBytes
  rw [if_neg]
  omega

theorem writeBytes_inside (m : Mem) (a : Nat) (bs : List Nat) (i : Nat) (h : i < bs.length) :
    writeBytes m a bs (a + i) = bs.getD i 0 := by
  unfold writeBytes
  rw [if_pos (by omega)]
  congr 1
  omega

theorem writeBytes_append (m : Mem) (a : Nat) (xs ys : List Nat) :
    writeBytes (writeBytes m a xs) (a + xs.length) ys = writeBytes m a (xs ++ ys) := by
  funext x
  by_cases h1 : x < a
  · rw [writeBytes_outside _ _ _ _ (Or.inl (by omega)), writeBytes_outside _ _ _ _ (Or.inl h1),
      writeBytes_outside _ _ _ _ (Or.inl h1)]
  · by_cases h2 : x < a + xs.length
    · rw [writeBytes_outside _ _ _ _ (Or.inl h2)]
      obtain ⟨i, rfl⟩ : ∃ i, x = a + i := ⟨x - a, by omega⟩
      rw [writeBytes_inside _ _ _ _ (by omega),
        writeBytes_inside _ _ _ _ (by rw [List.length_append]; omega)]
      simp [List.getD_eq_getElem?_getD, List.getElem?_append_left (show i < xs.length by omega)]
    · by_cases h3 : x < a + xs.length + ys.length
      · obtain ⟨i, rfl⟩ : ∃ i, x = a + xs.length + i := ⟨x - (a + xs.length), by omega⟩
        rw [writeBytes_inside _ _ _ _ (by omega), Nat.add_assoc,
          writeBytes_inside _ _ _ _ (by rw [List.length_append]; omega)]
        simp [List.getD_eq_getElem?_getD, List.getElem?_append_right]
      · rw [writeBytes_outside _ _ _ _ (Or.inr (by omega)),
          writeBytes_outside _ _ _ _ (Or.inr (by omega)),
          writeBytes_outside _ _ _ _ (Or.inr (by rw [List.length_append]; omega))]

theorem readBytes_length (m : Mem) (a n : Nat) : (readBytes m a n).length = n := by
  simp [readBytes]

theorem readBytes_writeBytes (m : Mem) (a : Nat) (bs : List Nat) :
    readBytes (writeBytes m a bs) a bs.length = bs := by
  apply List.ext_getElem
  · simp [readBytes]
  · intro i h1 h2
    simp only [readBytes, List.getElem_map, List.getElem_range]
    rw [writeBytes_inside _ _ _ _ h2]
    simp [List.getD_eq_getElem?_getD, List.getElem?_eq_getElem h2]

theorem readBytes_append (m : Mem) (a x y : Nat) :
    readBytes m a (x + y) = readBytes m a x ++ readBytes m (a + x) y := by
  simp [readBytes, List.range_add, List.map_map, Function.comp_def, Nat.add_assoc]

theorem readBytes_writeBytes_head (m : Mem) (a : Nat) (xs ys : List Nat) :
    readBytes (writeBytes m a (xs ++ ys)) a xs.length = xs := by
  have h := readBytes_writeBytes m a (xs ++ ys)
  rw [List.length_append, readBytes_append] at h
  have := List.append_inj_left h (by simp [readBytes_length])
  exact this

theorem dirRecord_length (st_ino : Nat) (off : Int) (st_mode : Nat) (name : List Nat)
    (h : name.length + 31 < 2 ^ 64) :
    (dirRecord st_ino off st_mode name).length = fuse_dirent_size name.length := by
  have hs := fuse_dirent_size_eq name.length h
  simp only [dirRecord, List.length_append, leBytes_length, List.length_replicate]
  omega

theorem fuse_add_dirent_eq (m : Mem) (buf : Nat) (name : List Nat) (st_ino st_mode : Nat)
    (off : Int) (h : name.length + 32 ≤ 2 ^ 32) :
    fuse_add_dirent m buf name st_ino st_mode off =
      (writeBytes m buf (dirRecord st_ino off st_mode name),
        buf + fuse_dirent_size name.length) := by
  have hs := fuse_dirent_size_eq name.length (by omega)
  have e1 : name.length % 2 ^ 32 = name.length := Nat.mod_eq_of_lt (by omega)
  have e2 : (FUSE_NAME_OFFSET + name.length) % 2 ^ 32 = 24 + name.length := by
    unfold FUSE_NAME_OFFSET; exact Nat.mod_eq_of_lt (by omega)
  have e3 : fuse_dirent_size name.length % 2 ^ 32 = fuse_dirent_size name.length :=
    Nat.mod_eq_of_lt (by omega)
  have e4 : (fuse_dirent_size name.length + 2 ^ 32 - (24 + name.length)) % 2 ^ 32 =
      fuse_dirent_size name.length - 24 - name.length := by
    omega
  unfold fuse_add_dirent
  simp only [e1, e2, e3, e4]
  congr 1
  have hpad : (if fuse_dirent_size name.length - 24 - name.length ≠ 0 then
        memset (strncpy (store32 (store32 (store64 (store64 m buf st_ino) (buf + 8) (toU64 off))
          (buf + 16) name.length) (buf + 20) ((st_mode &&& 0o170000) >>> 12))
          (buf + FUSE_NAME_OFFSET) name name.length) (buf + (24 + name.length)) 0
          (fuse_dirent_size name.length - 24 - name.length)
      else strncpy (store32 (store32 (store64 (store64 m buf st_ino) (buf + 8) (toU64 off))
          (buf + 16) name.length) (buf + 20) ((st_mode &&& 0o170000) >>> 12))
          (buf + FUSE_NAME_OFFSET) name name.length) =
      memset (strncpy (store32 (store32 (store64 (store64 m buf st_ino) (buf + 8) (toU64 off))
          (buf + 16) name.length) (buf + 20) ((st_mode &&& 0o170000) >>> 12))
          (buf + FUSE_NAME_OFFSET) name name.length) (buf + (24 + name.length)) 0
          (fuse_dirent_size name.length - 24 - name.length) := by
    split_ifs with hp
    · rfl
    · simp only [ne_eq, not_not] at hp
      rw [hp]
      simp [memset, writeBytes_nil]
  rw [hpad]
  unfold memset strncpy store32 store64 dirRecord FUSE_NAME_OFFSET
  simp only [Nat.sub_self, List.replicate_zero, List.append_nil, List.take_length]
  have w1 := writeBytes_append m buf (leBytes 8 st_ino) (leBytes 8 (toU64 off))
  rw [leBytes_length] at w1
  rw [w1]
  have w2 := writeBytes_append m buf (leBytes 8 st_ino ++ leBytes 8 (toU64 off))
    (leBytes 4 name.length)
  simp only [List.length_append, leBytes_length] at w2
  rw [show buf + 16 = buf + (8 + 8) by omega, w2]
  have w3 := writeBytes_append m buf
    (leBytes 8 st_ino ++ leBytes 8 (toU64 off) ++ leBytes 4 name.length)
    (leBytes 4 ((st_mode &&& 0o170000) >>> 12))
  simp only [List.length_append, leBytes_length] at w3
  rw [show buf + 20 = buf + (8 + 8 + 4) by omega, w3]
  have w4 := writeBytes_append m buf
    (leBytes 8 st_ino ++ leBytes 8 (toU64 off) ++ leBytes 4 name.length ++
      leBytes 4 ((st_mode &&& 0o170000) >>> 12)) name
  simp only [List.length_append, leBytes_length] at w4
  rw [show buf + 24 = buf + (8 + 8 + 4 + 4) by omega, w4]
  have w5 := writeBytes_append m buf
    (leBytes 8 st_ino ++ leBytes 8 (toU64 off) ++ leBytes 4 name.length ++
      leBytes 4 ((st_mode &&& 0o170000) >>> 12) ++ name)
    (List.replicate (fuse_dirent_size name.length - 24 - name.length) 0)
  simp only [List.length_append, leBytes_length] at w5
  rw [show buf + (24 + name.length) = buf + (8 + 8 + 4 + 4 + name.length) by omega, w5]

end bytes

section directory
variable {σ : Type}

theorem toInt32_of_lt (n : Nat) (h : n < 2 ^ 31) : toInt32 (n : Int) = n := by
  unfold toInt32
  have e : (n : Int) % 2 ^ 32 = n := Int.emod_eq_of_lt (by omega) (by omega)
  rw [e, if_pos (by omega)]

theorem recSize_bounds (e : Dirent) (h : e.d_name.length < MAXNAMELEN) :
    24 ≤ recSize e ∧ recSize e ≤ 280 ∧ recSize e % 8 = 0 ∧
      24 + e.d_name.length ≤ recSize e := by
  unfold MAXNAMELEN at h
  unfold recSize
  rw [fuse_dirent_size_eq _ (by omega)]
  omega

theorem entryRecord_length (e : Dirent) (h : e.d_name.length < MAXNAMELEN) :
    (entryRecord e).length = recSize e := by
  unfold MAXNAMELEN at h
  exact dirRecord_length _ _ _ _ (by omega)

theorem packed_cons (e : Dirent) (es : List Dirent) :
    packed (e :: es) = entryRecord e ++ packed es := by
  simp [packed]

theorem packed_length (es : List Dirent) (h : ∀ e ∈ es, e.d_name.length < MAXNAMELEN) :
    (packed es).length = (es.map recSize).sum := by
  induction es with
  | nil => rfl
  | cons e es ih =>
    rw [packed_cons, List.length_append, entryRecord_length e (h e (List.mem_cons_self _ _)),
      ih (fun x hx => h x (List.mem_cons_of_mem _ hx))]
    simp

theorem dirRead_eq_head (d : List Dirent) (next : Int) :
    dirRead d next = (entriesFrom d next).head? := by
  unfold dirRead entriesFrom
  induction d with
  | nil => rfl
  | cons a t ih =>
    by_cases h : next < a.d_off
    · have h' : ¬ a.d_off ≤ next := by omega
      simp [List.find?_cons, List.dropWhile_cons, h, h']
    · have h' : a.d_off ≤ next := by omega
      simp [List.find?_cons, List.dropWhile_cons, h, h', ih]

theorem entriesFrom_mem (d : List Dirent) (next : Int) (e : Dirent)
    (h : e ∈ entriesFrom d next) : e ∈ d :=
  (List.dropWhile_sublist _).subset h

theorem entriesFrom_self_of_lt (t : List Dirent) (c : Int) (h : ∀ b ∈ t, c < b.d_off) :
    entriesFrom t c = t := by
  cases t with
  | nil => rfl
  | cons b t =>
    have := h b (List.mem_cons_self _ _)
    have h' : ¬ b.d_off ≤ c := by omega
    simp [entriesFrom, List.dropWhile_cons, h']

theorem entriesFrom_next (d : List Dirent) (hs : d.Pairwise (fun a b => a.d_off < b.d_off))
    (next : Int) (e : Dirent) (rest : List Dirent) (h : entriesFrom d next = e :: rest) :
    entriesFrom d e.d_off = rest := by
  induction d with
  | nil => simp [entriesFrom] at h
  | cons a t ih =>
    rw [List.pairwise_cons] at hs
    by_cases ha : a.d_off ≤ next
    · have h1 : entriesFrom (a :: t) next = entriesFrom t next := by
        simp [entriesFrom, List.dropWhile_cons, ha]
      rw [h1] at h
      have hmem : e ∈ t := entriesFrom_mem t next e (by rw [h]; exact List.mem_cons_self _ _)
      have hlt := hs.1 e hmem
      have h2 : entriesFrom (a :: t) e.d_off = entriesFrom t e.d_off := by
        simp [entriesFrom, List.dropWhile_cons, le_of_lt hlt]
      rw [h2]
      exact ih hs.2 h
    · have h1 : entriesFrom (a :: t) next = a :: t := by
        simp [entriesFrom, List.dropWhile_cons, ha]
      rw [h1] at h
      injection h with h3 h4
      subst h3
      subst h4
      have h2 : entriesFrom (a :: t) a.d_off = entriesFrom t a.d_off := by
        simp [entriesFrom, List.dropWhile_cons]
      rw [h2]
      exact entriesFrom_self_of_lt t a.d_off hs.1

theorem entriesFrom_pairwise (d : List Dirent)
    (hs : d.Pairwise (fun a b => a.d_off < b.d_off)) (next : Int) :
    (entriesFrom d next).Pairwise (fun a b => a.d_off < b.d_off) :=
  hs.sublist (List.dropWhile_sublist _)

theorem readdir_loop_spec (E : Engine σ) (d : List Dirent) (vp : Vnode) (outbuf : Nat)
    (hs : d.Pairwise (fun a b => a.d_off < b.d_off))
    (hn : ∀ e ∈ d, e.d_name.length < MAXNAMELEN)
    (hE : ∀ s vp next, (E.VOP_READDIR s vp next).1 = 0 ∧
      (E.VOP_READDIR s vp next).2.1 = dirRead d next) :
    ∀ (fuel : Nat) (w : World σ) (m : Mem) (off resid : Nat) (next : Int),
      resid < fuel → off + resid < 2 ^ 31 →
      ∃ w', readdir_loop E vp outbuf fuel w m (off : Int) (resid : Int) next =
        some (0, writeBytes m (outbuf + off) (packed (fitPrefix resid (entriesFrom d next))),
          ((off + (packed (fitPrefix resid (entriesFrom d next))).length : Nat) : Int), w') := by
  intro fuel
  induction fuel with
  | zero => intro w m off resid next h; omega
  | succ fuel ih =>
    intro w m off resid next hfuel hrange
    unfold readdir_loop
    simp only [VOP_READDIR, vopOut, (hE w.st vp next).1, (hE w.st vp next).2, dirRead_eq_head]
    cases hes : entriesFrom d next with
    | nil =>
      simp [fitPrefix, packed, writeBytes_nil]
    | cons e rest =>
      have hmem : e ∈ d := entriesFrom_mem d next e (by rw [hes]; exact List.mem_cons_self _ _)
      have hb := recSize_bounds e (hn e hmem)
      have hlen := entryRecord_length e (hn e hmem)
      have hsz : toInt32 ((fuse_dirent_size e.d_name.length : Nat) : Int) = (recSize e : Nat) :=
        toInt32_of_lt _ (by unfold recSize at hb; omega)
      simp only [List.head?_cons, ne_eq, not_true_eq_false, if_false, hsz]
      by_cases hfit : recSize e ≤ resid
      · have hgt : ¬ ((recSize e : Int) > (resid : Int)) := by omega
        rw [if_neg hgt]
        have hnext := entriesFrom_next d hs next e rest hes
        have e1 : toInt32 ((off : Int) + (recSize e : Int)) = ((off + recSize e : Nat) : Int) := by
          rw [← Nat.cast_add]; exact toInt32_of_lt _ (by omega)
        have e2 : toInt32 ((resid : Int) - (recSize e : Int)) = ((resid - recSize e : Nat) : Int) := by
          rw [← Nat.cast_sub hfit]; exact toInt32_of_lt _ (by omega)
        have e3 : ((outbuf : Int) + (off : Int)).toNat = outbuf + off := by omega
        have hname : e.d_name.length + 32 ≤ 2 ^ 32 := by
          have := hn e hmem; unfold MAXNAMELEN at this; omega
        rw [e1, e2, e3, fuse_add_dirent_eq _ _ _ _ _ _ hname]
        obtain ⟨w', hw'⟩ := ih ⟨(E.VOP_READDIR w.st vp next).2.2,
            w.trace ++ [Ev.vop Prim.READDIR vp [next] 0 none]⟩
          (writeBytes m (outbuf + off) (dirRecord e.d_ino e.d_off 0 e.d_name))
          (off + recSize e) (resid - recSize e) e.d_off (by omega) (by omega)
        refine ⟨w', ?_⟩
        rw [hw', hnext]
        have hfp : fitPrefix resid (e :: rest) = e :: fitPrefix (resid - recSize e) rest := by
          simp [fitPrefix, hfit]
        rw [hfp, packed_cons, List.length_append, hlen]
        have hw := writeBytes_append m (outbuf + off) (entryRecord e)
          (packed (fitPrefix (resid - recSize e) rest))
        rw [hlen] at hw
        rw [← hw]
        simp only [entryRecord, Nat.add_assoc]
      · have hgt : (recSize e : Int) > (resid : Int) := by omega
        rw [if_pos hgt]
        have hfp : fitPrefix resid (e :: rest) = [] := by
          simp [fitPrefix, hfit]
        simp [hfp, packed, writeBytes_nil]

end directory

section fit

theorem fitPrefix_sum_le (cap : Nat) (es : List Dirent) :
    ((fitPrefix cap es).map recSize).sum ≤ cap := by
  induction es generalizing cap with
  | nil => simp [fitPrefix]
  | cons e es ih =>
    unfold fitPrefix
    split_ifs with h
    · have := ih (cap - recSize e)
      simp only [List.map_cons, List.sum_cons]
      omega
    · simp

theorem fitPrefix_longest (cap : Nat) (es : List Dirent) :
    ∃ rest, es = fitPrefix cap es ++ rest ∧
      ∀ e rest', rest = e :: rest' → cap < ((fitPrefix cap es).map recSize).sum + recSize e := by
  induction es generalizing cap with
  | nil => exact ⟨[], by simp [fitPrefix]⟩
  | cons e es ih =>
    unfold fitPrefix
    split_ifs with h
    · obtain ⟨rest, h1, h2⟩ := ih (cap - recSize e)
      refine ⟨rest, by rw [List.cons_append, ← h1], ?_⟩
      intro x rest' hx
      have := h2 x rest' hx
      simp only [List.map_cons, List.sum_cons]
      omega
    · refine ⟨e :: es, by simp, ?_⟩
      intro x rest' hx
      injection hx with hx1 hx2
      subst hx1
      simp
      omega

theorem fitPrefix_mem (cap : Nat) (es : List Dirent) (e : Dirent)
    (h : e ∈ fitPrefix cap es) : e ∈ es := by
  obtain ⟨rest, h1, _⟩ := fitPrefix_longest cap es
  rw [h1]
  exact List.mem_append_left _ h

theorem sum_recSize_mod (es : List Dirent) (h : ∀ e ∈ es, e.d_name.length < MAXNAMELEN) :
    (es.map recSize).sum % 8 = 0 := by
  induction es with
  | nil => rfl
  | cons e es ih =>
    have h1 := (recSize_bounds e (h e (List.mem_cons_self _ _))).2.2.1
    have h2 := ih (fun x hx => h x (List.mem_cons_of_mem _ hx))
    simp only [List.map_cons, List.sum_cons]
    omega

end fit

section readdir
variable {σ : Type}

theorem toInt32_range (n : Int) : -2 ^ 31 ≤ toInt32 n ∧ toInt32 n < 2 ^ 31 := by
  unfold toInt32
  have h1 := Int.emod_nonneg n (show (2 : Int) ^ 32 ≠ 0 by norm_num)
  have h2 := Int.emod_lt_of_pos n (show (0 : Int) < 2 ^ 32 by norm_num)
  split_ifs <;> omega

theorem toInt32_toNat_le (size : Nat) : (toInt32 (size : Int)).toNat ≤ size := by
  unfold toInt32
  have h1 := Int.emod_nonneg (size : Int) (show (2 : Int) ^ 32 ≠ 0 by norm_num)
  split_ifs <;> omega

theorem fitPrefix_zero (es : List Dirent) (h : ∀ e ∈ es, e.d_name.length < MAXNAMELEN) :
    fitPrefix 0 es = [] := by
  cases es with
  | nil => rfl
  | cons e es =>
    have := (recSize_bounds e (h e (List.mem_cons_self _ _))).1
    simp [fitPrefix]
    omega

theorem readdir_loop_neg (E : Engine σ) (d : List Dirent) (vp : Vnode) (outbuf : Nat)
    (hn : ∀ e ∈ d, e.d_name.length < MAXNAMELEN)
    (hE : ∀ s vp next, (E.VOP_READDIR s vp next).1 = 0 ∧
      (E.VOP_READDIR s vp next).2.1 = dirRead d next)
    (w : World σ) (m : Mem) (resid : Int) (next : Int) (hneg : resid < 0) :
    ∃ w', readdir_loop E vp outbuf 1 w m 0 resid next = some (0, m, 0, w') := by
  unfold readdir_loop
  simp only [VOP_READDIR, vopOut, (hE w.st vp next).1, (hE w.st vp next).2, dirRead_eq_head]
  cases hes : entriesFrom d next with
  | nil => simp
  | cons e rest =>
    have hmem : e ∈ d := entriesFrom_mem d next e (by rw [hes]; exact List.mem_cons_self _ _)
    have hb := recSize_bounds e (hn e hmem)
    have hsz : toInt32 ((fuse_dirent_size e.d_name.length : Nat) : Int) = (recSize e : Nat) :=
      toInt32_of_lt _ (by unfold recSize at hb; omega)
    have hgt : (recSize e : Int) > resid := by omega
    simp [hsz, hgt]

theorem readdir_spec (E : Engine σ) (s : σ) (d : List Dirent)
    (hs : d.Pairwise (fun a b => a.d_off < b.d_off))
    (hn : ∀ e ∈ d, e.d_name.length < MAXNAMELEN)
    (hE : ∀ s vp next, (E.VOP_READDIR s vp next).1 = 0 ∧
      (E.VOP_READDIR s vp next).2.1 = dirRead d next)
    (ino size : Nat) (off : Int) (outbuf : Nat) (m : Mem) (len0 : Nat) (data : file_info)
    (hdir : data.vp.v_type = vtype.VDIR) (hbuf : outbuf ≠ 0) :
    ∃ w', zfsslash2_readdir E (World.init s) ino size off outbuf m len0 data =
      some ⟨0, writeBytes m outbuf
          (packed (fitPrefix (toInt32 (size : Int)).toNat (entriesFrom d off))),
        (packed (fitPrefix (toInt32 (size : Int)).toNat (entriesFrom d off))).length, w'⟩ := by
  unfold zfsslash2_readdir
  simp only [hdir, ne_eq, not_true_eq_false, if_false, hbuf]
  have hr := toInt32_range (size : Int)
  by_cases hpos : 0 ≤ toInt32 (size : Int)
  · have hcast : toInt32 (size : Int) = ((toInt32 (size : Int)).toNat : Int) :=
      (Int.toNat_of_nonneg hpos).symm
    obtain ⟨w', hw'⟩ := readdir_loop_spec E d data.vp outbuf hs hn hE
      ((toInt32 (size : Int)).toNat + 1) (ZFS_ENTER (World.init s)) m 0
      (toInt32 (size : Int)).toNat off (by omega) (by omega)
    simp only [Nat.cast_zero, Nat.add_zero, Nat.zero_add] at hw'
    rw [← hcast] at hw'
    rw [hw']
    refine ⟨ZFS_EXIT w', ?_⟩
    simp only [Option.some.injEq, ReaddirRet.mk.injEq, and_true, true_and, toU64]
    have hle := fitPrefix_sum_le (toInt32 (size : Int)).toNat (entriesFrom d off)
    rw [← packed_length _ (fun e he => hn e (entriesFrom_mem d off e
      (fitPrefix_mem _ _ e he)))] at hle
    have : ((packed (fitPrefix (toInt32 (size : Int)).toNat (entriesFrom d off))).length : Int)
        % 2 ^ 64 = (packed (fitPrefix (toInt32 (size : Int)).toNat (entriesFrom d off))).length :=
      Int.emod_eq_of_lt (by omega) (by omega)
    omega
  · have hzero : (toInt32 (size : Int)).toNat = 0 := by omega
    obtain ⟨w', hw'⟩ := readdir_loop_neg E d data.vp outbuf hn hE (ZFS_ENTER (World.init s)) m
      (toInt32 (size : Int)) off (by omega)
    rw [hzero]
    simp only [Nat.zero_add]
    rw [hw']
    refine ⟨ZFS_EXIT w', ?_⟩
    rw [fitPrefix_zero _ (fun e he => hn e (entriesFrom_mem d off e he))]
    simp [packed, writeBytes_nil, toU64]

end readdir

section parse
variable {σ : Type}

theorem toInt64_toU64 (off : Int) (h1 : -2 ^ 63 ≤ off) (h2 : off < 2 ^ 63) :
    toInt64 ((toU64 off : Nat) : Int) = off := by
  unfold toInt64 toU64
  have hpos : (0 : Int) ≤ off % 2 ^ 64 := Int.emod_nonneg _ (by norm_num)
  rw [Int.toNat_of_nonneg hpos, Int.emod_emod_of_dvd _ (dvd_refl _)]
  by_cases h : 0 ≤ off
  · have e : off % 2 ^ 64 = off := Int.emod_eq_of_lt h (by omega)
    rw [e, if_pos h2]
  · have e : off % 2 ^ 64 = off + 2 ^ 64 := by
      have := Int.emod_eq_of_lt (show 0 ≤ off + 2 ^ 64 by omega) (show off + 2 ^ 64 < 2 ^ 64 by omega)
      rw [← this]
      simp
    rw [e, if_neg (by omega)]
    omega

theorem record_fields (e : Dirent) (P : List Nat) (h : e.d_name.length < MAXNAMELEN) :
    (entryRecord e ++ P).take 8 = leBytes 8 e.d_ino ∧
    ((entryRecord e ++ P).drop 8).take 8 = leBytes 8 (toU64 e.d_off) ∧
    ((entryRecord e ++ P).drop 16).take 4 = leBytes 4 e.d_name.length ∧
    ((entryRecord e ++ P).drop FUSE_NAME_OFFSET).take e.d_name.length = e.d_name ∧
    (entryRecord e ++ P).drop (recSize e) = P := by
  have hl := entryRecord_length e h
  refine ⟨?_, ?_, ?_, ?_, List.drop_left' hl⟩
  · simp only [entryRecord, dirRecord, List.append_assoc]
    exact List.take_left' (leBytes_length 8 _)
  · simp only [entryRecord, dirRecord, List.append_assoc]
    rw [List.drop_left' (leBytes_length 8 _)]
    exact List.take_left' (leBytes_length 8 _)
  · simp only [entryRecord, dirRecord, List.append_assoc]
    rw [show (16 : Nat) = 8 + 8 from rfl, ← List.drop_drop, List.drop_left' (leBytes_length 8 _),
      List.drop_left' (leBytes_length 8 _)]
    exact List.take_left' (leBytes_length 4 _)
  · simp only [entryRecord, dirRecord, List.append_assoc, FUSE_NAME_OFFSET]
    rw [show ∀ l : List Nat, l.drop 24 = ((((l.drop 8).drop 8).drop 4).drop 4) from
        fun l => by simp [List.drop_drop],
      List.drop_left' (leBytes_length 8 _),
      List.drop_left' (leBytes_length 8 _), List.drop_left' (leBytes_length 4 _),
      List.drop_left' (leBytes_length 4 _)]
    exact List.take_left' rfl

theorem parse_packed (es : List Dirent)
    (hes : ∀ e ∈ es, -2 ^ 63 ≤ e.d_off ∧ e.d_off < 2 ^ 63 ∧ e.d_ino < 2 ^ 64 ∧
      e.d_name.length < MAXNAMELEN) :
    ∀ fuel, es.length ≤ fuel → parseRecords fuel (packed es) = es := by
  induction es with
  | nil =>
    intro fuel _
    cases fuel with
    | zero => rfl
    | succ f => simp [parseRecords, packed, FUSE_NAME_OFFSET]
  | cons e rest ih =>
    intro fuel hf
    cases fuel with
    | zero => simp at hf
    | succ f =>
      obtain ⟨h1, h2, h3, h4⟩ := hes e (List.mem_cons_self _ _)
      have hb := recSize_bounds e h4
      have hl := entryRecord_length e h4
      obtain ⟨f1, f2, f3, f4, f5⟩ := record_fields e (packed rest) h4
      have hnl : leVal (leBytes 4 e.d_name.length) = e.d_name.length := by
        rw [leVal_leBytes]
        unfold MAXNAMELEN at h4
        exact Nat.mod_eq_of_lt (by omega)
      have hino : leVal (leBytes 8 e.d_ino) = e.d_ino := by
        rw [leVal_leBytes]
        exact Nat.mod_eq_of_lt (by omega)
      have hoff : toInt64 ((leVal (leBytes 8 (toU64 e.d_off)) : Nat) : Int) = e.d_off := by
        rw [leVal_leBytes]
        have hu : toU64 e.d_off < 2 ^ 64 := by
          unfold toU64
          have := Int.emod_lt_of_pos e.d_off (show (0 : Int) < 2 ^ 64 by norm_num)
          have := Int.emod_nonneg e.d_off (show (2 : Int) ^ 64 ≠ 0 by norm_num)
          omega
        rw [Nat.mod_eq_of_lt (by omega)]
        exact toInt64_toU64 _ h1 h2
      have hlen : ¬ (entryRecord e ++ packed rest).length < FUSE_NAME_OFFSET := by
        rw [List.length_append, hl]
        unfold FUSE_NAME_OFFSET
        omega
      rw [packed_cons]
      unfold parseRecords
      simp only [hlen, if_false, f1, f2, f3, hnl, f4, hino, hoff]
      have hrec : fuse_dirent_size e.d_name.length = recSize e := rfl
      rw [hrec, f5, ih (fun x hx => hes x (List.mem_cons_of_mem _ hx)) f (by simpa using hf)]

theorem entriesFrom_after (d : List Dirent) (hs : d.Pairwise (fun a b => a.d_off < b.d_off)) :
    ∀ (fp rem : List Dirent) (c : Int) (l : Dirent), entriesFrom d c = fp ++ rem →
      fp.getLast? = some l → entriesFrom d l.d_off = rem := by
  intro fp
  induction fp with
  | nil => intro rem c l _ h; simp at h
  | cons e fp ih =>
    intro rem c l h hl
    have hnext := entriesFrom_next d hs c e (fp ++ rem) (by rw [h]; rfl)
    cases fp with
    | nil =>
      simp at hl
      subst hl
      simpa using hnext
    | cons e2 fp2 =>
      rw [List.getLast?_cons_cons] at hl
      exact ih rem e.d_off l hnext hl

end parse

section listing
variable {σ : Type}

theorem length_le_sum_recSize (es : List Dirent)
    (h : ∀ e ∈ es, e.d_name.length < MAXNAMELEN) : es.length ≤ (es.map recSize).sum := by
  induction es with
  | nil => simp
  | cons e es ih =>
    have h1 := (recSize_bounds e (h e (List.mem_cons_self _ _))).1
    have h2 := ih (fun x hx => h x (List.mem_cons_of_mem _ hx))
    simp only [List.length_cons, List.map_cons, List.sum_cons]
    omega

theorem listDir_spec (E : Engine σ) (d : List Dirent) (hd : DirOK d)
    (hE : ∀ s vp next, (E.VOP_READDIR s vp next).1 = 0 ∧
      (E.VOP_READDIR s vp next).2.1 = dirRead d next)
    (data : file_info) (hdir : data.vp.v_type = vtype.VDIR) (outbuf : Nat) (hbuf : outbuf ≠ 0)
    (caps : Nat → Nat) :
    ∀ (n k : Nat) (s : σ) (m : Mem) (cursor : Int),
      (entriesFrom d cursor).length ≤ n →
      FitsNext (fun k => (toInt32 (caps k : Int)).toNat) n k (entriesFrom d cursor) →
      ∃ lens, listDir E data caps outbuf (n + 1) k s m cursor =
          some (entriesFrom d cursor, lens) ∧ lens.getLast? = some 0 := by
  have hn : ∀ e ∈ d, e.d_name.length < MAXNAMELEN := fun e he => (hd.2 e he).2.2.2
  have hempty : ∀ (n k : Nat) (s : σ) (m : Mem) (cursor : Int), entriesFrom d cursor = [] →
      listDir E data caps outbuf (n + 1) k s m cursor = some ([], [0]) := by
    intro n k s m cursor hes
    obtain ⟨w', hw'⟩ := readdir_spec E s d hd.1 hn hE data.vp.z_id (caps k) cursor outbuf m 0
      data hdir hbuf
    unfold listDir
    rw [hw', hes]
    simp [fitPrefix, packed]
  intro n
  induction n with
  | zero =>
    intro k s m cursor hlen _
    have hes : entriesFrom d cursor = [] := List.length_eq_zero.mp (by omega)
    exact ⟨[0], by rw [hempty 0 k s m cursor hes, hes], rfl⟩
  | succ n ih =>
    intro k s m cursor hlen hfit
    cases hes : entriesFrom d cursor with
    | nil => exact ⟨[0], by rw [hempty (n + 1) k s m cursor hes], rfl⟩
    | cons e rest =>
      rw [hes] at hlen hfit
      obtain ⟨hfit1, hfit2⟩ : recSize e ≤ (toInt32 (caps k : Int)).toNat ∧
          FitsNext (fun k => (toInt32 (caps k : Int)).toNat) n (k + 1) (rest.drop (fitPrefix ((toInt32 (caps k : Int)).toNat - recSize e) rest).length) := by
        simpa [FitsNext] using hfit
      obtain ⟨w', hw'⟩ := readdir_spec E s d hd.1 hn hE data.vp.z_id (caps k) cursor outbuf m 0
        data hdir hbuf
      obtain ⟨fp, hfpdef⟩ : ∃ fp, fp = fitPrefix ((toInt32 (caps k : Int)).toNat - recSize e) rest := ⟨_, rfl⟩
      rw [← hfpdef] at hfit2
      have hfp : fitPrefix (toInt32 (caps k : Int)).toNat (e :: rest) = e :: fp := by
        simp [fitPrefix, hfit1, hfpdef]
      obtain ⟨rem, hrem1, _⟩ := fitPrefix_longest ((toInt32 (caps k : Int)).toNat - recSize e) rest
      rw [← hfpdef] at hrem1
      have hrem : rest.drop fp.length = rem := by
        rw [hrem1]
        exact List.drop_left' rfl
      have hmemd : ∀ x ∈ e :: fp, x ∈ d := by
        intro x hx
        apply entriesFrom_mem d cursor x
        rw [hes]
        rcases List.mem_cons.mp hx with h | h
        · rw [h]; exact List.mem_cons_self _ _
        · exact List.mem_cons_of_mem _ (fitPrefix_mem ((toInt32 (caps k : Int)).toNat - recSize e) rest x (hfpdef ▸ h))
      have hmem : ∀ x ∈ e :: fp, x.d_name.length < MAXNAMELEN := fun x hx => hn x (hmemd x hx)
      have hplen := packed_length _ hmem
      have hcount := length_le_sum_recSize _ hmem
      have hpos : (packed (e :: fp)).length ≠ 0 := by
        rw [hplen]
        have := (recSize_bounds e (hmem e (List.mem_cons_self _ _))).1
        simp only [List.map_cons, List.sum_cons]
        omega
      have hparse := parse_packed (e :: fp)
        (fun x hx => by
          obtain ⟨a, b, c, dd⟩ := hd.2 x (hmemd x hx)
          exact ⟨by omega, b, c, dd⟩)
        (packed (e :: fp)).length (by rw [hplen]; exact hcount)
      obtain ⟨l, hl⟩ : ∃ l, (e :: fp).getLast? = some l := by
        cases h : (e :: fp).getLast? with
        | none => simp at h
        | some l => exact ⟨l, rfl⟩
      have hsplit : entriesFrom d cursor = (e :: fp) ++ rem := by
        rw [hes, List.cons_append, ← hrem1]
      have hafter := entriesFrom_after d hd.1 _ rem cursor l hsplit hl
      have hremlen : rem.length ≤ n := by
        have : rest.length = fp.length + rem.length := by
          rw [hrem1]
          exact List.length_append _ _
        simp only [List.length_cons] at hlen
        omega
      obtain ⟨lens, hlens, hlast⟩ := ih (k + 1) w'.st
        (writeBytes m outbuf (packed (e :: fp))) l.d_off
        (by rw [hafter]; exact hremlen) (by rw [hafter, ← hrem]; exact hfit2)
      rw [hes, hfp] at hw'
      rw [hafter] at hlens
      refine ⟨(packed (e :: fp)).length :: lens, ?_, ?_⟩
      · unfold listDir
        rw [hw']
        simp only [ne_eq, not_true_eq_false, if_false, hpos, readBytes_writeBytes, hparse, hl,
          hlens]
        rw [hrem1, List.cons_append]
      · cases lens with
        | nil => simp at hlast
        | cons a t => rw [List.getLast?_cons_cons]; exact hlast

end listing

/-- C1: the remap is total on 64-bit ids and is exactly the root swap: `toInternal 1 = 3`
and `toInternal id = id` for every other id, `toExternal 3 = 1` and `toExternal id = id`
for every other id; both stay 64-bit values. It is the remap of the code: `getattr`
resolves `toInternal ino`, and `stat` reports `toExternal va_nodeid`. -/
theorem C1_remap_exact {σ : Type} (K : Consts) (E : Engine σ) (s : σ) (stbuf : Stat)
    (vp : Vnode) (id : Nat) (h : id < 2 ^ 64) :
    toInternal 1 = 3 ∧ (id ≠ 1 → toInternal id = id) ∧
    toExternal 3 = 1 ∧ (id ≠ 3 → toExternal id = id) ∧
    toInternal id < 2 ^ 64 ∧ toExternal id < 2 ^ 64 ∧
    zgetIds (zfsslash2_getattr K E (World.init s) id stbuf).w.trace = [toInternal id] ∧
    ((E.VOP_GETATTR s vp (K.AT_STAT ||| K.AT_NBLOCKS ||| K.AT_BLKSIZE ||| K.AT_SIZE)).1 = 0 →
      (zfsslash2_stat K E (World.init s) vp stbuf).val.st_ino =
        toExternal (E.VOP_GETATTR s vp
          (K.AT_STAT ||| K.AT_NBLOCKS ||| K.AT_BLKSIZE ||| K.AT_SIZE)).2.1.va_nodeid) := by
  refine ⟨rfl, ?_, rfl, ?_, ?_, ?_, ?_, ?_⟩
  · intro h1; simp [toInternal, h1]
  · intro h3; simp [toExternal, h3]
  · unfold toInternal; split <;> omega
  · unfold toExternal; split <;> omega
  · simp only [zfsslash2_getattr, stat_w, stat_err]
    split_ifs <;>
      simp [zfs_zget, ZFS_ENTER, ZFS_EXIT, VN_RELE, World.log, World.init, VOP_GETATTR, vopOut,
        zgetIds, toInternal, *]
  · intro h0
    simp [zfsslash2_stat, VOP_GETATTR, vopOut, World.init, h0, toExternal]

/-- Witness of C1 at the id 7, with an engine that reports the node id 3 for the vnode
of the root: the id 7 passes both ways unchanged and `stat` reports the root as 1. -/
theorem C1_remap_exact_witness :
    (7 : Nat) < 2 ^ 64 ∧ toInternal 7 = 7 ∧ toExternal 7 = 7 ∧
    (zfsslash2_stat solarisConsts (modelEngine (fun _ => 0) 0 []) (World.init ())
      ⟨3, 7, vtype.VDIR⟩ Stat.zero).val.st_ino = 1 :=
  have h := C1_remap_exact solarisConsts (modelEngine (fun _ => 0) 0 []) () Stat.zero
    ⟨3, 7, vtype.VDIR⟩ 7 (by norm_num)
  ⟨by norm_num, h.2.1 (by decide), h.2.2.2.1 (by decide), h.2.2.2.2.2.2.2 rfl⟩

/-- C2: away from the reserved pair 1 and 3 the two remaps are inverse to each other:
`toInternal (toExternal id) = id` and `toExternal (toInternal id) = id` for every 64-bit
id other than 1 and 3. -/
theorem C2_remap_roundtrip (id : Nat) (_h : id < 2 ^ 64) (h1 : id ≠ 1) (h3 : id ≠ 3) :
    toInternal (toExternal id) = id ∧ toExternal (toInternal id) = id := by
  simp [toInternal, toExternal, h1, h3]

/-- Witness of C2 at the id 42. -/
theorem C2_remap_roundtrip_witness :
    toInternal (toExternal 42) = 42 ∧ toExternal (toInternal 42) = 42 :=
  C2_remap_roundtrip 42 (by norm_num) (by decide) (by decide)

/-- C3 (the code at the failing inputs): with the external root id 1 supplied, `rename`
hands its `newparent` argument to `zfs_zget` as 1, and `mkdir`, `rmdir`, `unlink` and
`setattr` without a handle (whose local `real_parent` / `real_ino` is compared with
itself, here holding 0) hand their id over as 1, where `toInternal 1 = 3`. -/
theorem C3_ingress_remap_missed :
    toInternal 1 = 3 ∧
    zgetIds (zfsslash2_rename (modelEngine (fun _ => 0) 0 []) (World.init ())
      1 [97] 1 [98]).w.trace = [3, 1] ∧
    zgetIds (zfsslash2_mkdir solarisConsts (modelEngine (fun _ => 0) 0 []) (World.init ())
      0 1 [97] 0o755 Stat.zero ⟨0, 0⟩).w.trace = [1] ∧
    zgetIds (zfsslash2_rmdir (modelEngine (fun _ => 0) 0 []) (World.init ())
      0 1 [97]).w.trace = [1] ∧
    zgetIds (zfsslash2_unlink (modelEngine (fun _ => 0) 0 []) (World.init ())
      0 1 [97]).w.trace = [1] ∧
    zgetIds (zfsslash2_setattr solarisConsts (modelEngine (fun _ => 0) 0 []) (World.init ())
      0 1 Stat.zero FUSE_SET_ATTR_MODE Stat.zero none).w.trace = [1] := by
  refine ⟨rfl, ?_, ?_, ?_, ?_, ?_⟩ <;> decide

/-- C4 (the code at the failing input): listing the root directory, whose entry `.` has
the engine id 3, `zfsslash2_readdir` writes 3 as the object id of the first record
(and of the second, `..`), where `toExternal 3 = 1`. -/
theorem C4_readdir_id_not_remapped :
    toExternal 3 = 1 ∧
    (zfsslash2_readdir (modelEngine (fun _ => 0) 0 rootDir) (World.init ()) 1 4096 0 1000
      (fun _ => 0) 0 rootHandle).map
      (fun r => (r.err, r.outbuf_len, leVal (readBytes r.mem 1000 8),
        leVal (readBytes r.mem 1032 8))) = some (0, 96, 3, 3) := by
  refine ⟨rfl, ?_⟩
  decide

/-- C5: in every operation that resolves an id (getattr, lookup, opendir, opencreate,
readlink, mkdir, rmdir, setattr without a handle, unlink, symlink, rename, link, access),
when `zfs_zget` fails with a non-zero `e` the operation returns `ENOENT` if `e = EEXIST`
and `e` otherwise, and its whole trace is enter, that `zfs_zget`, exit; when the second
resolve of rename or link fails, the only further step is the release of the first
object. -/
theorem C5_resolve_failure {σ : Type} (K : Consts) (E : Engine σ) (s s' : σ) (e : Int)
    (v : Vnode) (he : e ≠ 0) :
    (∀ ino stbuf, E.zfs_zget s (toInternal ino) true = (e, v, s') →
      ResolveFailed (zfsslash2_getattr K E (World.init s) ino stbuf) (toInternal ino) e v) ∧
    (∀ parent name stb, name.length < MAXNAMELEN →
      E.zfs_zget s (toInternal parent) true = (e, v, s') →
      ResolveFailed (zfsslash2_lookup K E (World.init s) parent name stb)
        (toInternal parent) e v) ∧
    (∀ ino fg priv, E.zfs_zget s (toInternal ino) true = (e, v, s') →
      ResolveFailed (zfsslash2_opendir K E (World.init s) ino fg priv) (toInternal ino) e v) ∧
    (∀ ino fflags createmode name o, (∀ n, name = some n → n.length < MAXNAMELEN) →
      E.zfs_zget s (toInternal ino) false = (e, v, s') →
      ResolveFailed (zfsslash2_opencreate K E (World.init s) ino fflags createmode name o)
        (toInternal ino) e v) ∧
    (∀ ino buf m, E.zfs_zget s (toInternal ino) false = (e, v, s') →
      ∃ r, zfsslash2_readlink K E (World.init s) ino buf m = some r ∧
        ResolveFailed r (toInternal ino) e v) ∧
    (∀ uninit parent name mode stb fg, name.length < MAXNAMELEN →
      E.zfs_zget s (if uninit = 1 then 3 else parent) false = (e, v, s') →
      ResolveFailed (zfsslash2_mkdir K E (World.init s) uninit parent name mode stb fg)
        (if uninit = 1 then 3 else parent) e v) ∧
    (∀ uninit parent name, name.length < MAXNAMELEN →
      E.zfs_zget s (if uninit = 1 then 3 else parent) false = (e, v, s') →
      ResolveFailed (zfsslash2_rmdir E (World.init s) uninit parent name)
        (if uninit = 1 then 3 else parent) e v) ∧
    (∀ uninit ino attr to_set out_attr,
      E.zfs_zget s (if uninit = 1 then 3 else ino) true = (e, v, s') →
      ResolveFailed (zfsslash2_setattr K E (World.init s) uninit ino attr to_set out_attr none)
        (if uninit = 1 then 3 else ino) e v) ∧
    (∀ uninit parent name, name.length < MAXNAMELEN →
      E.zfs_zget s (if uninit = 1 then 3 else parent) false = (e, v, s') →
      ResolveFailed (zfsslash2_unlink E (World.init s) uninit parent name)
        (if uninit = 1 then 3 else parent) e v) ∧
    (∀ link parent name stb fg, name.length < MAXNAMELEN →
      E.zfs_zget s (toInternal parent) false = (e, v, s') →
      ResolveFailed (zfsslash2_symlink K E (World.init s) link parent name stb fg)
        (toInternal parent) e v) ∧
    (∀ parent name newparent newname, name.length < MAXNAMELEN →
      newname.length < MAXNAMELEN →
      E.zfs_zget s (toInternal parent) false = (e, v, s') →
      ResolveFailed (zfsslash2_rename E (World.init s) parent name newparent newname)
        (toInternal parent) e v) ∧
    (∀ s0 v1 parent name newparent newname, name.length < MAXNAMELEN →
      newname.length < MAXNAMELEN →
      E.zfs_zget s0 (toInternal parent) false = (0, v1, s) →
      E.zfs_zget s newparent false = (e, v, s') →
      SecondResolveFailed (zfsslash2_rename E (World.init s0) parent name newparent newname)
        (toInternal parent) v1 newparent e v) ∧
    (∀ ino newparent newname fg stb, newname.length < MAXNAMELEN →
      E.zfs_zget s (toInternal ino) false = (e, v, s') →
      ResolveFailed (zfsslash2_link K E (World.init s) ino newparent newname fg stb)
        (toInternal ino) e v) ∧
    (∀ s0 v1 ino newparent newname fg stb, newname.length < MAXNAMELEN →
      E.zfs_zget s0 (toInternal ino) false = (0, v1, s) →
      E.zfs_zget s (toInternal newparent) false = (e, v, s') →
      SecondResolveFailed (zfsslash2_link K E (World.init s0) ino newparent newname fg stb)
        (toInternal ino) v1 (toInternal newparent) e v) ∧
    (∀ ino mask, E.zfs_zget s (toInternal ino) true = (e, v, s') →
      ResolveFailed (zfsslash2_access K E (World.init s) ino mask) (toInternal ino) e v) :=
  ⟨fun ino stbuf hz => fail_getattr K E s s' e v he ino stbuf hz,
   fun parent name stb hn hz => fail_lookup K E s s' e v he parent name stb hn hz,
   fun ino fg priv hz => fail_opendir K E s s' e v he ino fg priv hz,
   fun ino fflags createmode name o hn hz =>
     fail_opencreate K E s s' e v he ino fflags createmode name o hn hz,
   fun ino buf m hz => fail_readlink K E s s' e v he ino buf m hz,
   fun uninit parent name mode stb fg hn hz =>
     fail_mkdir K E s s' e v he uninit parent name mode stb fg hn hz,
   fun uninit parent name hn hz => fail_rmdir E s s' e v he uninit parent name hn hz,
   fun uninit ino attr to_set out_attr hz =>
     fail_setattr K E s s' e v he uninit ino attr to_set out_attr hz,
   fun uninit parent name hn hz => fail_unlink E s s' e v he uninit parent name hn hz,
   fun link parent name stb fg hn hz => fail_symlink K E s s' e v he link parent name stb fg hn hz,
   fun parent name newparent newname hn hm hz =>
     fail_rename E s s' e v he parent name newparent newname hn hm hz,
   fun s0 v1 parent name newparent newname hn hm hz1 hz =>
     fail_rename_second E s0 s s' e v1 v he parent name newparent newname hn hm hz1 hz,
   fun ino newparent newname fg stb hm hz =>
     fail_link K E s s' e v he ino newparent newname fg stb hm hz,
   fun s0 v1 ino newparent newname fg stb hm hz1 hz =>
     fail_link_second K E s0 s s' e v1 v he ino newparent newname fg stb hm hz1 hz,
   fun ino mask hz => fail_access K E s s' e v he ino mask hz⟩

/-- Witness of C5: an engine whose `zfs_zget` answers `EEXIST` makes getattr of the root
return `ENOENT`; one that answers 5 makes mkdir return 5; and when only the id 7 fails to
resolve, with `EEXIST`, rename into 7 and link into 7 return `ENOENT` after releasing the
object they had resolved first. -/
theorem C5_resolve_failure_witness :
    (17 : Int) ≠ 0 ∧ (5 : Int) ≠ 0 ∧
    ResolveFailed (zfsslash2_getattr solarisConsts (modelEngine (fun _ => 17) 0 [])
      (World.init ()) 1 Stat.zero) 3 17 ⟨3, 7, vtype.VDIR⟩ ∧
    (zfsslash2_getattr solarisConsts (modelEngine (fun _ => 17) 0 [])
      (World.init ()) 1 Stat.zero).err = ENOENT ∧
    ResolveFailed (zfsslash2_mkdir solarisConsts (modelEngine (fun _ => 5) 0 [])
      (World.init ()) 0 4 [97] 0o755 Stat.zero ⟨0, 0⟩) 4 5 ⟨4, 7, vtype.VDIR⟩ ∧
    SecondResolveFailed (zfsslash2_rename (modelEngine (fun id => if id = 7 then 17 else 0) 0 [])
      (World.init ()) 1 [97] 7 [98]) 3 ⟨3, 7, vtype.VDIR⟩ 7 17 ⟨7, 7, vtype.VDIR⟩ ∧
    SecondResolveFailed (zfsslash2_link solarisConsts
      (modelEngine (fun id => if id = 7 then 17 else 0) 0 [])
      (World.init ()) 9 7 [98] ⟨0, 0⟩ Stat.zero) 9 ⟨9, 7, vtype.VDIR⟩ 7 17 ⟨7, 7, vtype.VDIR⟩ :=
  ⟨by decide, by decide,
   (C5_resolve_failure solarisConsts (modelEngine (fun _ => 17) 0 []) () () 17
      ⟨3, 7, vtype.VDIR⟩ (by decide)).1 1 Stat.zero rfl,
   by decide,
   (C5_resolve_failure solarisConsts (modelEngine (fun _ => 5) 0 []) () () 5
      ⟨4, 7, vtype.VDIR⟩ (by decide)).2.2.2.2.2.1 0 4 [97] 0o755 Stat.zero ⟨0, 0⟩
      (by decide) rfl,
   (C5_resolve_failure solarisConsts (modelEngine (fun id => if id = 7 then 17 else 0) 0 [])
      () () 17 ⟨7, 7, vtype.VDIR⟩ (by decide)).2.2.2.2.2.2.2.2.2.2.2.1 ()
      ⟨3, 7, vtype.VDIR⟩ 1 [97] 7 [98] (by decide) (by decide) rfl rfl,
   (C5_resolve_failure solarisConsts (modelEngine (fun id => if id = 7 then 17 else 0) 0 [])
      () () 17 ⟨7, 7, vtype.VDIR⟩ (by decide)).2.2.2.2.2.2.2.2.2.2.2.2.2.1 ()
      ⟨9, 7, vtype.VDIR⟩ 9 7 [98] ⟨0, 0⟩ Stat.zero (by decide) rfl rfl⟩

/-- C6: with the parent resolved and the name shorter than `MAXNAMELEN`, rmdir returns
`ENOTEMPTY` when `VOP_RMDIR` fails with `EEXIST`, 0 when it succeeds, and any other code
unchanged; unlink returns the code of `VOP_REMOVE` unchanged, whatever it is. -/
theorem C6_rmdir_unlink_errors {σ : Type} (E : Engine σ) (s s1 s2 : σ) (uninit parent : Nat)
    (name : List Nat) (dvp : Vnode) (e : Int) (hn : name.length < MAXNAMELEN)
    (hz : E.zfs_zget s (if uninit = 1 then 3 else parent) false = (0, dvp, s1)) :
    (E.VOP_RMDIR s1 dvp name = (e, s2) →
      (e = EEXIST → (zfsslash2_rmdir E (World.init s) uninit parent name).err = ENOTEMPTY) ∧
      (e = 0 → (zfsslash2_rmdir E (World.init s) uninit parent name).err = 0) ∧
      (e ≠ EEXIST → (zfsslash2_rmdir E (World.init s) uninit parent name).err = e)) ∧
    (E.VOP_REMOVE s1 dvp name = (e, s2) →
      (zfsslash2_unlink E (World.init s) uninit parent name).err = e) := by
  have hn' := Nat.not_le.mpr hn
  constructor
  · intro hr
    have herr : (zfsslash2_rmdir E (World.init s) uninit parent name).err =
        if e = EEXIST then ENOTEMPTY else e := by
      simp [zfsslash2_rmdir, zfs_zget, ZFS_ENTER, World.log, World.init, VOP_RMDIR, vopCall,
        hz, hr, hn']
    rw [herr]
    refine ⟨fun h => by simp [h], fun h => by simp [h, EEXIST], fun h => by simp [h]⟩
  · intro hr
    simp [zfsslash2_unlink, zfs_zget, ZFS_ENTER, World.log, World.init, VOP_REMOVE, vopCall,
      hz, hr, hn']

/-- Witness of C6: removal of a non-empty directory (`VOP_RMDIR` answers `EEXIST`) is
reported as `ENOTEMPTY` by rmdir, and the same code from `VOP_REMOVE` is reported as
`EEXIST` by unlink. -/
theorem C6_rmdir_unlink_errors_witness :
    (zfsslash2_rmdir (modelEngine (fun _ => 0) 17 []) (World.init ()) 0 5 [100]).err
      = ENOTEMPTY ∧
    (zfsslash2_unlink (modelEngine (fun _ => 0) 17 []) (World.init ()) 0 5 [100]).err
      = EEXIST :=
  have h := C6_rmdir_unlink_errors (modelEngine (fun _ => 0) 17 []) () () () 0 5 [100]
    ⟨5, 7, vtype.VDIR⟩ 17 (by decide) rfl
  ⟨(h.1 rfl).1 rfl, h.2 rfl⟩

/-- C7 as stated fails for a name of 4294967272 = 2^32 - 24 bytes: `entlen` and `entsize`
wrap to 0 in `unsigned`, so the returned position is `buf` itself and not `buf` advanced
by `fuse_dirent_size` of the name length, which is 2^32. -/
theorem C7_dirent_layout_counterexample :
    (fuse_add_dirent (fun _ => 0) 0 (List.replicate 4294967272 65) 1 0 0).2 = 0 ∧
    fuse_dirent_size (List.replicate 4294967272 65).length = 4294967296 := by
  simp only [fuse_add_dirent, List.length_replicate]
  decide

/-- C7 (amended): for every name of length `n ≤ 2^32 - 32`, object id, next offset and
mode, `fuse_dirent_size n` is the least multiple of 8 that is at least `24 + n`, and
`fuse_add_dirent` returns the position advanced by exactly that size, leaves in these
bytes the 8-byte object id, the 8-byte next offset, the 4-byte name length, the 4-byte
type tag `(st_mode & 0170000) >> 12`, the name and then fewer than 8 zero bytes, and
changes no byte outside them. -/
theorem C7_dirent_layout (m : Mem) (buf : Nat) (name : List Nat) (st_ino st_mode : Nat)
    (off : Int) (h : name.length + 32 ≤ 2 ^ 32) :
    fuse_dirent_size name.length % 8 = 0 ∧
    24 + name.length ≤ fuse_dirent_size name.length ∧
    fuse_dirent_size name.length < 24 + name.length + 8 ∧
    (fuse_add_dirent m buf name st_ino st_mode off).2 = buf + fuse_dirent_size name.length ∧
    readBytes (fuse_add_dirent m buf name st_ino st_mode off).1 buf
        (fuse_dirent_size name.length) =
      leBytes 8 st_ino ++ leBytes 8 (toU64 off) ++ leBytes 4 name.length ++
        leBytes 4 ((st_mode &&& 0o170000) >>> 12) ++ name ++
        List.replicate (fuse_dirent_size name.length - 24 - name.length) 0 ∧
    (∀ a, a < buf ∨ buf + fuse_dirent_size name.length ≤ a →
      (fuse_add_dirent m buf name st_ino st_mode off).1 a = m a) := by
  have hs := fuse_dirent_size_eq name.length (by omega)
  have hl := dirRecord_length st_ino off st_mode name (by omega)
  rw [fuse_add_dirent_eq m buf name st_ino st_mode off h]
  refine ⟨by omega, by omega, by omega, rfl, ?_, ?_⟩
  · have := readBytes_writeBytes m buf (dirRecord st_ino off st_mode name)
    rw [hl] at this
    exact this
  · intro a ha
    exact writeBytes_outside m buf _ a (by rw [hl]; exact ha)

/-- Witness of C7: the record of the name `f` (one byte), object id 9, next offset 3 and a
regular-file mode is 32 bytes: id, offset, length 1, type tag 8, `f`, seven zero bytes. -/
theorem C7_dirent_layout_witness :
    (fuse_add_dirent (fun _ => 255) 1000 [102] 9 0o100644 3).2 = 1032 ∧
    readBytes (fuse_add_dirent (fun _ => 255) 1000 [102] 9 0o100644 3).1 1000 32 =
      [9, 0, 0, 0, 0, 0, 0, 0, 3, 0, 0, 0, 0, 0, 0, 0, 1, 0, 0, 0, 8, 0, 0, 0,
        102, 0, 0, 0, 0, 0, 0, 0] ∧
    (fuse_add_dirent (fun _ => 255) 1000 [102] 9 0o100644 3).1 1032 = 255 :=
  have h := C7_dirent_layout (fun _ => 255) 1000 [102] 9 0o100644 3 (by decide)
  ⟨h.2.2.2.1, by decide, h.2.2.2.2.2 1032 (Or.inr (by decide))⟩

/-- C8 as stated fails for the capacity 2^31: `int outbuf_resid = size` is then negative,
no record fits, and the call returns 0 bytes although the three records of the
directory, 96 bytes, fit in the capacity. -/
theorem C8_readdir_packing_counterexample :
    (zfsslash2_readdir (modelEngine (fun _ => 0) 0 rootDir) (World.init ()) 1 2147483648 0
      1000 (fun _ => 0) 0 rootHandle).map (fun r => (r.err, r.outbuf_len)) = some (0, 0) ∧
    ((fitPrefix 2147483648 (entriesFrom rootDir 0)).map recSize).sum = 96 := by
  constructor <;> decide

/-- C8 (amended): on an open directory whose native entries `d` have strictly advancing
offsets, with an engine readdir that never fails, for every capacity `size`, start cursor
and non-null buffer, `zfsslash2_readdir` returns 0 and a byte count that is at most `size`
and a multiple of 8; the count is the sum of the record sizes of the longest prefix of the
entries from the cursor that fits in the capacity as the code holds it, the `int` value
of `size` (nothing fits a negative one), which is `size` itself when `size < 2^31`; the
buffer holds exactly the records of that prefix in native order and no byte outside them
is changed. -/
theorem C8_readdir_packing {σ : Type} (E : Engine σ) (s : σ) (d : List Dirent)
    (hs : d.Pairwise (fun a b => a.d_off < b.d_off))
    (hn : ∀ e ∈ d, e.d_name.length < MAXNAMELEN)
    (hE : ∀ s vp next, (E.VOP_READDIR s vp next).1 = 0 ∧
      (E.VOP_READDIR s vp next).2.1 = dirRead d next)
    (ino size : Nat) (off : Int) (outbuf : Nat) (m : Mem) (len0 : Nat) (data : file_info)
    (hdir : data.vp.v_type = vtype.VDIR) (hbuf : outbuf ≠ 0) :
    (size < 2 ^ 31 → (toInt32 (size : Int)).toNat = size) ∧
    ∃ r, zfsslash2_readdir E (World.init s) ino size off outbuf m len0 data = some r ∧
      r.err = 0 ∧
      r.outbuf_len =
        ((fitPrefix (toInt32 (size : Int)).toNat (entriesFrom d off)).map recSize).sum ∧
      r.outbuf_len ≤ size ∧ r.outbuf_len % 8 = 0 ∧
      (∃ rest, entriesFrom d off =
          fitPrefix (toInt32 (size : Int)).toNat (entriesFrom d off) ++ rest ∧
        ∀ e rest', rest = e :: rest' →
          (toInt32 (size : Int)).toNat < r.outbuf_len + recSize e) ∧
      readBytes r.mem outbuf r.outbuf_len =
        ((fitPrefix (toInt32 (size : Int)).toNat (entriesFrom d off)).map
          (fun e => dirRecord e.d_ino e.d_off 0 e.d_name)).flatten ∧
      (∀ a, a < outbuf ∨ outbuf + r.outbuf_len ≤ a → r.mem a = m a) := by
  refine ⟨fun hsize => by rw [toInt32_of_lt size hsize]; rfl, ?_⟩
  obtain ⟨w', hw'⟩ := readdir_spec E s d hs hn hE ino size off outbuf m len0 data hdir hbuf
  have hmem : ∀ e ∈ fitPrefix (toInt32 (size : Int)).toNat (entriesFrom d off),
      e.d_name.length < MAXNAMELEN :=
    fun e he => hn e (entriesFrom_mem d off e (fitPrefix_mem _ _ e he))
  have hlen := packed_length _ hmem
  refine ⟨_, hw', rfl, hlen, ?_, ?_, ?_, ?_, ?_⟩
  · show (packed (fitPrefix (toInt32 (size : Int)).toNat (entriesFrom d off))).length ≤ size
    rw [hlen]
    exact le_trans (fitPrefix_sum_le _ _) (toInt32_toNat_le size)
  · show (packed (fitPrefix (toInt32 (size : Int)).toNat (entriesFrom d off))).length % 8 = 0
    rw [hlen]; exact sum_recSize_mod _ hmem
  · obtain ⟨rest, h1, h2⟩ := fitPrefix_longest (toInt32 (size : Int)).toNat (entriesFrom d off)
    refine ⟨rest, h1, ?_⟩
    intro e rest' hr
    show (toInt32 (size : Int)).toNat <
      (packed (fitPrefix (toInt32 (size : Int)).toNat (entriesFrom d off))).length + recSize e
    rw [hlen]; exact h2 e rest' hr
  · exact readBytes_writeBytes m outbuf _
  · intro a ha
    exact writeBytes_outside m outbuf _ a ha

/-- Witness of C8: with room for 64 bytes the listing of the root directory from cursor 0
returns the two 32-byte records of `.` and `..` and stops without error before the third. -/
theorem C8_readdir_packing_witness :
    ∃ r, zfsslash2_readdir (modelEngine (fun _ => 0) 0 rootDir) (World.init ()) 1 64 0 1000
        (fun _ => 0) 0 rootHandle = some r ∧ r.err = 0 ∧ r.outbuf_len = 64 :=
  have h := C8_readdir_packing (modelEngine (fun _ => 0) 0 rootDir) () rootDir
    (by decide) (by decide) (fun _ _ _ => ⟨rfl, rfl⟩) 1 64 0 1000 (fun _ => 0) 0 rootHandle
    rfl (by decide)
  match h.2 with
  | ⟨r, h1, h2, h3, _⟩ => ⟨r, h1, h2, by rw [h3]; decide⟩

/-- C9 as stated fails when a call is given the capacity 2^31: it fits the next record
(and every record) of the root directory, yet the first call returns 0 bytes, so the
listing ends at once with none of the three entries. -/
theorem C9_pagination_counterexample :
    DirOK rootDir ∧ FitsNext (fun _ => 2147483648) 3 0 rootDir ∧
    listDir (modelEngine (fun _ => 0) 0 rootDir) rootHandle (fun _ => 2147483648) 1000 4 0 ()
      (fun _ => 0) 0 = some ([], [0]) := by
  refine ⟨⟨by decide, by decide⟩, ?_, by decide⟩
  simp only [FitsNext]
  decide

/-- C9 (amended): for a directory of native entries with offsets advancing strictly from 0
that does not change, and calls in which each capacity, as the code holds it (its `int`
value, the capacity itself when below 2^31), fits at least the next record, the client
that starts at cursor 0 and resumes every call at the next-offset field of the last record
it got reads every entry exactly once, in native order, and its last call returns 0
bytes. -/
theorem C9_pagination {σ : Type} (E : Engine σ) (d : List Dirent) (hd : DirOK d)
    (hE : ∀ s vp next, (E.VOP_READDIR s vp next).1 = 0 ∧
      (E.VOP_READDIR s vp next).2.1 = dirRead d next)
    (data : file_info) (hdir : data.vp.v_type = vtype.VDIR) (outbuf : Nat) (hbuf : outbuf ≠ 0)
    (caps : Nat → Nat)
    (hfit : FitsNext (fun k => (toInt32 (caps k : Int)).toNat) d.length 0 d)
    (s : σ) (m : Mem) :
    ∃ lens, listDir E data caps outbuf (d.length + 1) 0 s m 0 = some (d, lens) ∧
      lens.getLast? = some 0 := by
  have h0 : entriesFrom d 0 = d := entriesFrom_self_of_lt d 0 (fun b hb => (hd.2 b hb).1)
  have h := listDir_spec E d hd hE data hdir outbuf hbuf caps d.length 0 s m 0
    (by rw [h0]) (by rw [h0]; exact hfit)
  rw [h0] at h
  exact h

/-- Witness of C9: the root directory listed with 64-byte calls takes three calls, of 64,
32 and 0 bytes, and yields its three entries in order. -/
theorem C9_pagination_witness :
    ∃ lens, listDir (modelEngine (fun _ => 0) 0 rootDir) rootHandle (fun _ => 64) 1000 4 0 ()
      (fun _ => 0) 0 = some (rootDir, lens) ∧ lens.getLast? = some 0 :=
  C9_pagination (modelEngine (fun _ => 0) 0 rootDir) rootDir ⟨by decide, by decide⟩
    (fun _ _ _ => ⟨rfl, rfl⟩) rootHandle rfl 1000 (by decide) (fun _ => 64)
    (by simp only [FitsNext]; decide) () (fun _ => 0)

/-- C10: counting a successful `zfs_zget`, `VOP_LOOKUP`, `VOP_CREATE` or `VOP_MKDIR` as one
reference taken and `VN_RELE` as one dropped, on every path of getattr, lookup, readlink,
mkdir, rmdir, setattr, unlink, symlink, rename, link and access, whatever the engine
answers, no reference is dropped that is not held and none is held at the return; opendir
and opencreate do the same when they fail, and when they succeed they hold exactly the one
reference of the vnode in the returned handle; release drops exactly that one (and aborts
on `VERIFY` when the close fails). -/
theorem C10_reference_balance {σ : Type} (K : Consts) (E : Engine σ) (s : σ)
    (hk : 0 < K.sizeof_charp) :
    (∀ ino stbuf,
      runRefs [] (zfsslash2_getattr K E (World.init s) ino stbuf).w.trace = some []) ∧
    (∀ parent name stb,
      runRefs [] (zfsslash2_lookup K E (World.init s) parent name stb).w.trace = some []) ∧
    (∀ ino fg priv,
      ((zfsslash2_opendir K E (World.init s) ino fg priv).err ≠ 0 →
        runRefs [] (zfsslash2_opendir K E (World.init s) ino fg priv).w.trace = some []) ∧
      ((zfsslash2_opendir K E (World.init s) ino fg priv).err = 0 →
        ∃ info, (zfsslash2_opendir K E (World.init s) ino fg priv).val.2 = some info ∧
          runRefs [] (zfsslash2_opendir K E (World.init s) ino fg priv).w.trace
            = some [info.vp])) ∧
    (∀ ino fflags createmode name o,
      ((zfsslash2_opencreate K E (World.init s) ino fflags createmode name o).err ≠ 0 →
        runRefs [] (zfsslash2_opencreate K E (World.init s) ino fflags createmode name o).w.trace
          = some []) ∧
      ((zfsslash2_opencreate K E (World.init s) ino fflags createmode name o).err = 0 →
        ∃ info, (zfsslash2_opencreate K E (World.init s) ino fflags createmode name o).val.priv
            = some info ∧
          runRefs [] (zfsslash2_opencreate K E (World.init s) ino fflags createmode name
            o).w.trace = some [info.vp])) ∧
    (∀ ino info, (E.VOP_CLOSE s info.vp info.flags).1 = 0 →
      ∃ r, zfsslash2_release E (World.init s) ino info = some r ∧ r.err = 0 ∧
        runRefs [info.vp] r.w.trace = some []) ∧
    (∀ ino info, (E.VOP_CLOSE s info.vp info.flags).1 ≠ 0 →
      zfsslash2_release E (World.init s) ino info = none) ∧
    (∀ ino buf m, ∃ r, zfsslash2_readlink K E (World.init s) ino buf m = some r ∧
      runRefs [] r.w.trace = some []) ∧
    (∀ uninit parent name mode stb fg,
      runRefs [] (zfsslash2_mkdir K E (World.init s) uninit parent name mode stb fg).w.trace
        = some []) ∧
    (∀ uninit parent name,
      runRefs [] (zfsslash2_rmdir E (World.init s) uninit parent name).w.trace = some []) ∧
    (∀ uninit ino attr to_set out_attr data,
      runRefs [] (zfsslash2_setattr K E (World.init s) uninit ino attr to_set out_attr
        data).w.trace = some []) ∧
    (∀ uninit parent name,
      runRefs [] (zfsslash2_unlink E (World.init s) uninit parent name).w.trace = some []) ∧
    (∀ link parent name stb fg,
      runRefs [] (zfsslash2_symlink K E (World.init s) link parent name stb fg).w.trace
        = some []) ∧
    (∀ parent name newparent newname,
      runRefs [] (zfsslash2_rename E (World.init s) parent name newparent newname).w.trace
        = some []) ∧
    (∀ ino newparent newname fg stb,
      runRefs [] (zfsslash2_link K E (World.init s) ino newparent newname fg stb).w.trace
        = some []) ∧
    (∀ ino mask,
      runRefs [] (zfsslash2_access K E (World.init s) ino mask).w.trace = some []) :=
  ⟨fun ino stbuf => refs_getattr K E s ino stbuf,
   fun parent name stb => refs_lookup K E s parent name stb,
   fun ino fg priv => refs_opendir K E s ino fg priv,
   fun ino fflags createmode name o => refs_opencreate K E s ino fflags createmode name o,
   fun ino info h => refs_release E s ino info h,
   fun ino info h => by
     simp [zfsslash2_release, VOP_CLOSE, vopCall, ZFS_ENTER, World.log, World.init, h],
   fun ino buf m => refs_readlink K E s ino buf m hk,
   fun uninit parent name mode stb fg => refs_mkdir K E s uninit parent name mode stb fg,
   fun uninit parent name => refs_rmdir E s uninit parent name,
   fun uninit ino attr to_set out_attr data =>
     refs_setattr K E s uninit ino attr to_set out_attr data,
   fun uninit parent name => refs_unlink E s uninit parent name,
   fun link parent name stb fg => refs_symlink K E s link parent name stb fg,
   fun parent name newparent newname => refs_rename E s parent name newparent newname,
   fun ino newparent newname fg stb => refs_link K E s ino newparent newname fg stb,
   fun ino mask => refs_access K E s ino mask⟩

/-- Witness of C10 on the evaluation engine: a successful opendir of the root leaves the
one reference of the directory vnode in the handle, release of that handle drops it, and
link ends with no reference held. -/
theorem C10_reference_balance_witness :
    0 < solarisConsts.sizeof_charp ∧
    runRefs [] (zfsslash2_opendir solarisConsts (modelEngine (fun _ => 0) 0 []) (World.init ())
      1 ⟨0, 0⟩ none).w.trace = some [⟨3, 7, vtype.VDIR⟩] ∧
    (∃ r, zfsslash2_release (modelEngine (fun _ => 0) 0 []) (World.init ()) 1 rootHandle
        = some r ∧ r.err = 0 ∧ runRefs [rootHandle.vp] r.w.trace = some []) ∧
    runRefs [] (zfsslash2_link solarisConsts (modelEngine (fun _ => 0) 0 []) (World.init ())
      9 1 [97] ⟨0, 0⟩ Stat.zero).w.trace = some [] :=
  have h := C10_reference_balance solarisConsts (modelEngine (fun _ => 0) 0 []) ()
    (by decide)
  ⟨by decide, by decide, h.2.2.2.2.1 1 rootHandle rfl,
    h.2.2.2.2.2.2.2.2.2.2.2.2.2.1 9 1 [97] ⟨0, 0⟩ Stat.zero⟩

/-! ## Handles, attributes and data: claims C11 to C16 -/

section handles
variable {σ : Type}

@[simp] theorem primCalls_append (p : Prim) (a b : List Ev) :
    primCalls p (a ++ b) = primCalls p a ++ primCalls p b := by
  induction a with
  | nil => rfl
  | cons e t ih =>
    cases e with
    | vop q tgt args err out => by_cases h : q = p <;> simp [primCalls, ih, h]
    | _ => simp [primCalls, ih]

/-- Intersection with a word goes into a conditional. -/
theorem ite_land (c : Prop) [Decidable c] (a b g : Nat) :
    (if c then a else b) &&& g = if c then a &&& g else b &&& g := by
  split_ifs <;> rfl

/-- The mask of the record `zfsslash2_setattr` builds: one attribute bit per requested
field. -/
theorem setattrVattr_mask (K : Consts) (attr : Stat) (ts : Nat) :
    (setattrVattr K attr ts).va_mask =
      (if ts &&& FUSE_SET_ATTR_MODE ≠ 0 then K.AT_MODE else 0) |||
      (if ts &&& FUSE_SET_ATTR_UID ≠ 0 then K.AT_UID else 0) |||
      (if ts &&& FUSE_SET_ATTR_GID ≠ 0 then K.AT_GID else 0) |||
      (if ts &&& FUSE_SET_ATTR_SIZE ≠ 0 then K.AT_SIZE else 0) |||
      (if ts &&& FUSE_SET_ATTR_ATIME ≠ 0 then K.AT_ATIME else 0) |||
      (if ts &&& FUSE_SET_ATTR_MTIME ≠ 0 then K.AT_MTIME else 0) := by
  unfold setattrVattr
  split_ifs <;> simp [Vattr.zero]

/-- Clearing the size bit of `to_set` leaves it clear. -/
theorem size_bit_cleared (ts : Nat) :
    (ts &&& (2 ^ 32 - 1 - FUSE_SET_ATTR_SIZE)) &&& FUSE_SET_ATTR_SIZE = 0 := by
  rw [Nat.land_assoc]
  have : (2 ^ 32 - 1 - FUSE_SET_ATTR_SIZE) &&& FUSE_SET_ATTR_SIZE = 0 := by decide
  rw [this, Nat.and_zero]

/-- A bit absent from two words is absent from their union. -/
theorem lor_land_zero (a b c : Nat) (h1 : a &&& c = 0) (h2 : b &&& c = 0) :
    (a ||| b) &&& c = 0 := by
  rw [Nat.land_comm, Nat.and_or_distrib_left, Nat.land_comm c a, Nat.land_comm c b, h1, h2]
  rfl

/-- C12 (the claim as stated fails): on an engine whose `VOP_SPACE` fails with 5, setattr
through a handle open for writing on a regular file, asked for size and mode, calls
`VOP_SPACE` once, returns 5 and does not call `VOP_SETATTR`, although the mode remains
requested once the size bit is cleared. -/
theorem C12_setattr_size_counterexample :
    fileHandle.flags &&& solarisConsts.FWRITE ≠ 0 ∧ fileHandle.vp.v_type = vtype.VREG ∧
    (zfsslash2_setattr solarisConsts (linkEngine [] 5) (World.init ()) 0 9
      { Stat.zero with st_size := 10, st_mode := 0o600 }
      (FUSE_SET_ATTR_SIZE ||| FUSE_SET_ATTR_MODE) Stat.zero (some fileHandle)).err = 5 ∧
    primCalls Prim.SPACE (zfsslash2_setattr solarisConsts (linkEngine [] 5) (World.init ()) 0 9
      { Stat.zero with st_size := 10, st_mode := 0o600 }
      (FUSE_SET_ATTR_SIZE ||| FUSE_SET_ATTR_MODE) Stat.zero (some fileHandle)).w.trace =
      [[(solarisConsts.F_FREESP : Int), 10, (fileHandle.flags : Int)]] ∧
    ¬ (primCalls Prim.SETATTR (zfsslash2_setattr solarisConsts (linkEngine [] 5) (World.init ())
        0 9 { Stat.zero with st_size := 10, st_mode := 0o600 }
        (FUSE_SET_ATTR_SIZE ||| FUSE_SET_ATTR_MODE) Stat.zero (some fileHandle)).w.trace ≠ [] ↔
      (FUSE_SET_ATTR_SIZE ||| FUSE_SET_ATTR_MODE) &&& (2 ^ 32 - 1 - FUSE_SET_ATTR_SIZE) ≠ 0) := by
  decide

/-- The path of `zfsslash2_setattr` through a handle open for writing on a regular file
with the size bit requested. -/
theorem setattr_handle_size (K : Consts) (E : Engine σ) (s : σ) (uninit ino : Nat)
    (attr : Stat) (to_set : Nat) (out_attr : Stat) (info : file_info)
    (hs : to_set &&& FUSE_SET_ATTR_SIZE ≠ 0) (hw : info.flags &&& K.FWRITE ≠ 0)
    (hv : info.vp.v_type = vtype.VREG) :
    zfsslash2_setattr K E (World.init s) uninit ino attr to_set out_attr (some info) =
      if (VOP_SPACE E (ZFS_ENTER (World.init s)) info.vp K.F_FREESP attr.st_size
          info.flags).err ≠ 0 then
        ⟨(VOP_SPACE E (ZFS_ENTER (World.init s)) info.vp K.F_FREESP attr.st_size info.flags).err,
          out_attr,
          ZFS_EXIT (VOP_SPACE E (ZFS_ENTER (World.init s)) info.vp K.F_FREESP attr.st_size
            info.flags).w⟩
      else if to_set &&& (2 ^ 32 - 1 - FUSE_SET_ATTR_SIZE) = 0 then
        ⟨(zfsslash2_stat K E (VOP_SPACE E (ZFS_ENTER (World.init s)) info.vp K.F_FREESP
            attr.st_size info.flags).w info.vp out_attr).err,
          (zfsslash2_stat K E (VOP_SPACE E (ZFS_ENTER (World.init s)) info.vp K.F_FREESP
            attr.st_size info.flags).w info.vp out_attr).val,
          ZFS_EXIT (zfsslash2_stat K E (VOP_SPACE E (ZFS_ENTER (World.init s)) info.vp K.F_FREESP
            attr.st_size info.flags).w info.vp out_attr).w⟩
      else if (VOP_SETATTR E (VOP_SPACE E (ZFS_ENTER (World.init s)) info.vp K.F_FREESP
            attr.st_size info.flags).w info.vp
            (setattrVattr K attr (to_set &&& (2 ^ 32 - 1 - FUSE_SET_ATTR_SIZE)))
            (setattrFlags K (to_set &&& (2 ^ 32 - 1 - FUSE_SET_ATTR_SIZE)))).err = 0 then
        ⟨(zfsslash2_stat K E (VOP_SETATTR E (VOP_SPACE E (ZFS_ENTER (World.init s)) info.vp
            K.F_FREESP attr.st_size info.flags).w info.vp
            (setattrVattr K attr (to_set &&& (2 ^ 32 - 1 - FUSE_SET_ATTR_SIZE)))
            (setattrFlags K (to_set &&& (2 ^ 32 - 1 - FUSE_SET_ATTR_SIZE)))).w info.vp
            out_attr).err,
          (zfsslash2_stat K E (VOP_SETATTR E (VOP_SPACE E (ZFS_ENTER (World.init s)) info.vp
            K.F_FREESP attr.st_size info.flags).w info.vp
            (setattrVattr K attr (to_set &&& (2 ^ 32 - 1 - FUSE_SET_ATTR_SIZE)))
            (setattrFlags K (to_set &&& (2 ^ 32 - 1 - FUSE_SET_ATTR_SIZE)))).w info.vp
            out_attr).val,
          ZFS_EXIT (zfsslash2_stat K E (VOP_SETATTR E (VOP_SPACE E (ZFS_ENTER (World.init s))
            info.vp K.F_FREESP attr.st_size info.flags).w info.vp
            (setattrVattr K attr (to_set &&& (2 ^ 32 - 1 - FUSE_SET_ATTR_SIZE)))
            (setattrFlags K (to_set &&& (2 ^ 32 - 1 - FUSE_SET_ATTR_SIZE)))).w info.vp
            out_attr).w⟩
      else
        ⟨(VOP_SETATTR E (VOP_SPACE E (ZFS_ENTER (World.init s)) info.vp K.F_FREESP
            attr.st_size info.flags).w info.vp
            (setattrVattr K attr (to_set &&& (2 ^ 32 - 1 - FUSE_SET_ATTR_SIZE)))
            (setattrFlags K (to_set &&& (2 ^ 32 - 1 - FUSE_SET_ATTR_SIZE)))).err,
          out_attr,
          ZFS_EXIT (VOP_SETATTR E (VOP_SPACE E (ZFS_ENTER (World.init s)) info.vp K.F_FREESP
            attr.st_size info.flags).w info.vp
            (setattrVattr K attr (to_set &&& (2 ^ 32 - 1 - FUSE_SET_ATTR_SIZE)))
            (setattrFlags K (to_set &&& (2 ^ 32 - 1 - FUSE_SET_ATTR_SIZE)))).w⟩ := by
  unfold zfsslash2_setattr
  generalize to_set &&& (2 ^ 32 - 1 - FUSE_SET_ATTR_SIZE) = rest
  simp only [hs, hw, hv, ne_eq, not_true_eq_false, not_false_eq_true, if_true, if_false]
  split_ifs <;> simp_all

/-- C12 (amended): setattr through a handle with the size bit requested. Without `FWRITE`
in the handle's flags it returns `EBADF`, whatever the object type; with `FWRITE` on an
object that is not a regular file it returns `EINVAL`; in both cases it calls nothing
between the fences. Otherwise it calls `VOP_SPACE` once, with `F_FREESP`, start
`attr.st_size` and the handle's flags. When that call fails with `e` it returns `e` and
does not call `VOP_SETATTR`. When it succeeds, `VOP_SETATTR` is called (once) exactly when
`to_set` without the size bit is not 0, and its mask is built from `to_set` without the
size bit: it holds no `AT_SIZE` contribution, and no `AT_SIZE` bit when that bit is none of
the bits of the other attribute masks. -/
theorem C12_setattr_size {σ : Type} (K : Consts) (E : Engine σ) (s : σ) (uninit ino : Nat)
    (attr : Stat) (to_set : Nat) (out_attr : Stat) (info : file_info)
    (hs : to_set &&& FUSE_SET_ATTR_SIZE ≠ 0) :
    (info.flags &&& K.FWRITE = 0 →
      (zfsslash2_setattr K E (World.init s) uninit ino attr to_set out_attr (some info)).err
        = EBADF ∧
      (zfsslash2_setattr K E (World.init s) uninit ino attr to_set out_attr (some info)).w.trace
        = [Ev.enter, Ev.exit]) ∧
    (info.flags &&& K.FWRITE ≠ 0 → info.vp.v_type ≠ vtype.VREG →
      (zfsslash2_setattr K E (World.init s) uninit ino attr to_set out_attr (some info)).err
        = EINVAL ∧
      (zfsslash2_setattr K E (World.init s) uninit ino attr to_set out_attr (some info)).w.trace
        = [Ev.enter, Ev.exit]) ∧
    (info.flags &&& K.FWRITE ≠ 0 → info.vp.v_type = vtype.VREG →
      primCalls Prim.SPACE
        (zfsslash2_setattr K E (World.init s) uninit ino attr to_set out_attr (some info)).w.trace
        = [[(K.F_FREESP : Int), (attr.st_size : Int), (info.flags : Int)]] ∧
      ((E.VOP_SPACE s info.vp K.F_FREESP attr.st_size info.flags).1 ≠ 0 →
        (zfsslash2_setattr K E (World.init s) uninit ino attr to_set out_attr (some info)).err
          = (E.VOP_SPACE s info.vp K.F_FREESP attr.st_size info.flags).1 ∧
        primCalls Prim.SETATTR
          (zfsslash2_setattr K E (World.init s) uninit ino attr to_set out_attr
            (some info)).w.trace = []) ∧
      ((E.VOP_SPACE s info.vp K.F_FREESP attr.st_size info.flags).1 = 0 →
        (to_set &&& (2 ^ 32 - 1 - FUSE_SET_ATTR_SIZE) = 0 →
          primCalls Prim.SETATTR
            (zfsslash2_setattr K E (World.init s) uninit ino attr to_set out_attr
              (some info)).w.trace = []) ∧
        (to_set &&& (2 ^ 32 - 1 - FUSE_SET_ATTR_SIZE) ≠ 0 →
          primCalls Prim.SETATTR
            (zfsslash2_setattr K E (World.init s) uninit ino attr to_set out_attr
              (some info)).w.trace =
            [[((setattrVattr K attr (to_set &&& (2 ^ 32 - 1 - FUSE_SET_ATTR_SIZE))).va_mask : Int),
              (setattrFlags K (to_set &&& (2 ^ 32 - 1 - FUSE_SET_ATTR_SIZE)) : Int)]]))) ∧
    (setattrVattr K attr (to_set &&& (2 ^ 32 - 1 - FUSE_SET_ATTR_SIZE))).va_mask =
      (if to_set &&& (2 ^ 32 - 1 - FUSE_SET_ATTR_SIZE) &&& FUSE_SET_ATTR_MODE ≠ 0
        then K.AT_MODE else 0) |||
      (if to_set &&& (2 ^ 32 - 1 - FUSE_SET_ATTR_SIZE) &&& FUSE_SET_ATTR_UID ≠ 0
        then K.AT_UID else 0) |||
      (if to_set &&& (2 ^ 32 - 1 - FUSE_SET_ATTR_SIZE) &&& FUSE_SET_ATTR_GID ≠ 0
        then K.AT_GID else 0) |||
      (if to_set &&& (2 ^ 32 - 1 - FUSE_SET_ATTR_SIZE) &&& FUSE_SET_ATTR_ATIME ≠ 0
        then K.AT_ATIME else 0) |||
      (if to_set &&& (2 ^ 32 - 1 - FUSE_SET_ATTR_SIZE) &&& FUSE_SET_ATTR_MTIME ≠ 0
        then K.AT_MTIME else 0) ∧
    (K.AT_MODE &&& K.AT_SIZE = 0 → K.AT_UID &&& K.AT_SIZE = 0 → K.AT_GID &&& K.AT_SIZE = 0 →
      K.AT_ATIME &&& K.AT_SIZE = 0 → K.AT_MTIME &&& K.AT_SIZE = 0 →
      (setattrVattr K attr (to_set &&& (2 ^ 32 - 1 - FUSE_SET_ATTR_SIZE))).va_mask
        &&& K.AT_SIZE = 0) := by
  have hmask := setattrVattr_mask K attr (to_set &&& (2 ^ 32 - 1 - FUSE_SET_ATTR_SIZE))
  rw [size_bit_cleared] at hmask
  simp only [ne_eq, not_true_eq_false, if_false, Nat.or_zero] at hmask
  refine ⟨?_, ?_, ?_, hmask, ?_⟩
  · intro hw
    unfold zfsslash2_setattr
    simp [hs, hw, ZFS_ENTER, ZFS_EXIT, World.log, World.init, EBADF]
  · intro hw hv
    unfold zfsslash2_setattr
    simp [hs, hw, hv, ZFS_ENTER, ZFS_EXIT, World.log, World.init, EINVAL]
  · intro hw hv
    rw [setattr_handle_size K E s uninit ino attr to_set out_attr info hs hw hv]
    generalize to_set &&& (2 ^ 32 - 1 - FUSE_SET_ATTR_SIZE) = rest
    simp only [apply_ite Ret.w, apply_ite Ret.err, stat_w, stat_err]
    refine ⟨?_, ?_, ?_⟩
    · split_ifs <;>
        simp_all [ZFS_ENTER, ZFS_EXIT, World.log, World.init, VOP_GETATTR, vopOut,
          VOP_SETATTR, VOP_SPACE, vopCall, primCalls]
    · intro he
      split_ifs <;>
        simp_all [ZFS_ENTER, ZFS_EXIT, World.log, World.init, VOP_GETATTR, vopOut,
          VOP_SETATTR, VOP_SPACE, vopCall, primCalls]
    · intro he
      refine ⟨?_, ?_⟩
      · intro hr
        split_ifs <;>
          simp_all [ZFS_ENTER, ZFS_EXIT, World.log, World.init, VOP_GETATTR, vopOut,
            VOP_SETATTR, VOP_SPACE, vopCall, primCalls]
      · intro hr
        split_ifs <;>
          simp_all [ZFS_ENTER, ZFS_EXIT, World.log, World.init, VOP_GETATTR, vopOut,
            VOP_SETATTR, VOP_SPACE, vopCall, primCalls]
  · intro h1 h2 h3 h4 h5
    rw [hmask]
    refine lor_land_zero _ _ _ (lor_land_zero _ _ _ (lor_land_zero _ _ _
      (lor_land_zero _ _ _ ?_ ?_) ?_) ?_) ?_ <;> split_ifs <;> first | assumption | exact Nat.zero_and _

/-- Witness of C12: on an engine whose `VOP_SPACE` succeeds, setattr through the handle of
the regular file 9, open for reading and writing, asked for size 10 and mode 0600, calls
`VOP_SPACE` with `F_FREESP`, start 10 and the handle's flags, and then `VOP_SETATTR` with
the mask `AT_MODE` alone. -/
theorem C12_setattr_size_witness :
    (FUSE_SET_ATTR_SIZE ||| FUSE_SET_ATTR_MODE) &&& FUSE_SET_ATTR_SIZE ≠ 0 ∧
    primCalls Prim.SPACE (zfsslash2_setattr solarisConsts (linkEngine [] 0) (World.init ()) 0 9
      { Stat.zero with st_size := 10, st_mode := 0o600 }
      (FUSE_SET_ATTR_SIZE ||| FUSE_SET_ATTR_MODE) Stat.zero (some fileHandle)).w.trace =
      [[11, 10, 3]] ∧
    primCalls Prim.SETATTR (zfsslash2_setattr solarisConsts (linkEngine [] 0) (World.init ()) 0 9
      { Stat.zero with st_size := 10, st_mode := 0o600 }
      (FUSE_SET_ATTR_SIZE ||| FUSE_SET_ATTR_MODE) Stat.zero (some fileHandle)).w.trace =
      [[2, 0]] :=
  have h := C12_setattr_size solarisConsts (linkEngine [] 0) () 0 9
    { Stat.zero with st_size := 10, st_mode := 0o600 }
    (FUSE_SET_ATTR_SIZE ||| FUSE_SET_ATTR_MODE) Stat.zero fileHandle (by decide)
  have h3 := h.2.2.1 (by decide) rfl
  ⟨by decide, h3.1, (h3.2.2 rfl).2 (by decide)⟩

/-- The function `zfsslash2_read` writes nowhere but into the block `outbuf` it allocated:
every byte outside `[outbuf, outbuf + size)` is after the call what it was before. -/
theorem read_outside_outbuf (E : Engine σ) (w : World σ) (m : Mem) (outbuf ino buf size : Nat)
    (off : Int) (info : file_info) (a : Nat) (ha : a < outbuf ∨ outbuf + size ≤ a) :
    (zfsslash2_read E w m outbuf ino buf size off info).val a = m a := by
  unfold zfsslash2_read
  by_cases h0 : outbuf = 0
  · simp [h0]
  · simp only [h0, if_false]
    apply writeBytes_outside
    have := List.length_take_le size (VOP_READ E (ZFS_ENTER w) info.vp size off info.flags).val
    omega

/-- C13 (the code at the failing input): on the byte-store engine, with `hello` in the
caller's memory at 2000 and the caller's read buffer `buf` at 1000 holding five bytes 255,
`zfsslash2_write` of those 5 bytes at offset 0 returns 0 and the store then holds `hello`
at offset 0; the following `zfsslash2_read` of 5 bytes at offset 0 returns 0, the block
`outbuf` at 3000 that it allocated holds `hello`, and `buf` still holds the five bytes
255. -/
theorem C13_read_leaves_buf_untouched :
    (zfsslash2_write storeEngine (World.init (fun _ => 0))
        (writeBytes (fun _ => 255) 2000 hello) 9 2000 5 0 fileHandle).map
      (fun wr =>
        (wr.err, readBytes wr.w.st 0 5,
          (zfsslash2_read storeEngine (World.init wr.w.st)
            (writeBytes (fun _ => 255) 2000 hello) 3000 9 1000 5 0 fileHandle).err,
          readBytes (zfsslash2_read storeEngine (World.init wr.w.st)
            (writeBytes (fun _ => 255) 2000 hello) 3000 9 1000 5 0 fileHandle).val 3000 5,
          readBytes (zfsslash2_read storeEngine (World.init wr.w.st)
            (writeBytes (fun _ => 255) 2000 hello) 3000 9 1000 5 0 fileHandle).val 1000 5)) =
      some (0, hello, 0, hello, [255, 255, 255, 255, 255]) := by
  decide

/-- C14: `zfsslash2_stat` makes one attribute request, with the fixed mask
`AT_STAT | AT_NBLOCKS | AT_BLKSIZE | AT_SIZE`. When the request fails with `e` it returns `e`
and the output record is as it was. When it succeeds it returns 0 and the record is
determined by the engine's answer: `st_ino` is `toExternal va_nodeid`, `st_mode` is the type
bits of `va_type` or-ed with `va_mode`, fs id, link count, uid, gid, rdev, size, block size
and blocks are the engine's values, the three times are the engine's seconds, and everything
else in the record is zero. -/
theorem C14_stat_translation {σ : Type} (K : Consts) (E : Engine σ) (s s' : σ) (vp : Vnode)
    (stbuf : Stat) (e : Int) (va : Vattr)
    (hg : E.VOP_GETATTR s vp (K.AT_STAT ||| K.AT_NBLOCKS ||| K.AT_BLKSIZE ||| K.AT_SIZE)
      = (e, va, s')) :
    (zfsslash2_stat K E (World.init s) vp stbuf).w.trace =
      [Ev.vop Prim.GETATTR vp
        [((K.AT_STAT ||| K.AT_NBLOCKS ||| K.AT_BLKSIZE ||| K.AT_SIZE : Nat) : Int)] e none] ∧
    (zfsslash2_stat K E (World.init s) vp stbuf).err = e ∧
    (e ≠ 0 → (zfsslash2_stat K E (World.init s) vp stbuf).val = stbuf) ∧
    (e = 0 → (zfsslash2_stat K E (World.init s) vp stbuf).val =
      { st_dev := va.va_fsid,
        st_ino := toExternal va.va_nodeid,
        st_mode := K.VTTOIF va.va_type ||| va.va_mode,
        st_nlink := va.va_nlink,
        st_uid := va.va_uid,
        st_gid := va.va_gid,
        st_rdev := va.va_rdev,
        st_size := va.va_size,
        st_blksize := va.va_blksize,
        st_blocks := va.va_nblocks,
        st_atime := va.va_atime.tv_sec,
        st_mtime := va.va_mtime.tv_sec,
        st_ctime := va.va_ctime.tv_sec,
        st_rest := 0 }) := by
  by_cases he : e = 0
  · subst he
    simp [zfsslash2_stat, VOP_GETATTR, vopOut, World.init, hg, toExternal, Stat.zero]
  · simp [zfsslash2_stat, VOP_GETATTR, vopOut, World.init, hg, he]

/-- Witness of C14: for the root vnode, whose node id the engine reports as 3, `stat`
returns 0 with `st_ino = 1`, the directory type bits as mode and all else zero. -/
theorem C14_stat_translation_witness :
    (zfsslash2_stat solarisConsts (modelEngine (fun _ => 0) 0 []) (World.init ())
      ⟨3, 7, vtype.VDIR⟩ ⟨1, 1, 1, 1, 1, 1, 1, 1, 1, 1, 1, 1, 1, 1⟩).err = 0 ∧
    (zfsslash2_stat solarisConsts (modelEngine (fun _ => 0) 0 []) (World.init ())
      ⟨3, 7, vtype.VDIR⟩ ⟨1, 1, 1, 1, 1, 1, 1, 1, 1, 1, 1, 1, 1, 1⟩).val =
      { Stat.zero with st_ino := 1, st_mode := 0o040000 } :=
  have h := C14_stat_translation solarisConsts (modelEngine (fun _ => 0) 0 []) () ()
    ⟨3, 7, vtype.VDIR⟩ ⟨1, 1, 1, 1, 1, 1, 1, 1, 1, 1, 1, 1, 1, 1⟩ 0
    { Vattr.zero with va_nodeid := 3, va_type := vtype.VDIR } rfl
  ⟨h.2.1, by rw [h.2.2.2 rfl]; decide⟩

/-- C16: `zfsslash2_readlink` asks the engine for `sizeof(buf) - 1` bytes, the size of a
pointer less one (7 on an LP64 target), whatever the caller's buffer. With the object
resolved and an engine that moves the first `uio_resid` bytes of the link's `target`, the
call returns 0 and leaves in `buf` those bytes followed by a NUL whose index is below the
pointer size; a target longer than `sizeof(buf) - 1` bytes is cut to its first
`sizeof(buf) - 1` bytes with the NUL at index `sizeof(buf) - 1`. -/
theorem C16_readlink_limit {σ : Type} (K : Consts) (E : Engine σ) (s s1 s2 : σ) (ino buf : Nat)
    (m : Mem) (vp : Vnode) (target : List Nat) (hk : 0 < K.sizeof_charp)
    (hz : E.zfs_zget s (toInternal ino) false = (0, vp, s1))
    (hr : E.VOP_READLINK s1 vp (K.sizeof_charp - 1) = (0, target.take (K.sizeof_charp - 1), s2)) :
    ∃ r, zfsslash2_readlink K E (World.init s) ino buf m = some r ∧ r.err = 0 ∧
      primCalls Prim.READLINK r.w.trace = [[((K.sizeof_charp - 1 : Nat) : Int)]] ∧
      (K.sizeof_charp = 8 → primCalls Prim.READLINK r.w.trace = [[7]]) ∧
      (target.take (K.sizeof_charp - 1)).length < K.sizeof_charp ∧
      r.val = writeBytes (writeBytes m buf (target.take (K.sizeof_charp - 1)))
        (buf + (target.take (K.sizeof_charp - 1)).length) [0] ∧
      readBytes r.val buf ((target.take (K.sizeof_charp - 1)).length + 1) =
        target.take (K.sizeof_charp - 1) ++ [0] ∧
      (K.sizeof_charp - 1 < target.length →
        readBytes r.val buf K.sizeof_charp = target.take (K.sizeof_charp - 1) ++ [0] ∧
        r.val (buf + (K.sizeof_charp - 1)) = 0) := by
  unfold toInternal at hz
  have hlen : (target.take (K.sizeof_charp - 1)).length < K.sizeof_charp := by
    have := List.length_take_le (K.sizeof_charp - 1) target
    omega
  have hread : readBytes (writeBytes (writeBytes m buf (target.take (K.sizeof_charp - 1)))
      (buf + (target.take (K.sizeof_charp - 1)).length) [0]) buf
      ((target.take (K.sizeof_charp - 1)).length + 1) =
      target.take (K.sizeof_charp - 1) ++ [0] := by
    rw [writeBytes_append]
    have := readBytes_writeBytes m buf (target.take (K.sizeof_charp - 1) ++ [0])
    simpa using this
  have key : zfsslash2_readlink K E (World.init s) ino buf m =
      some ⟨0, writeBytes (writeBytes m buf (target.take (K.sizeof_charp - 1)))
        (buf + (target.take (K.sizeof_charp - 1)).length) [0],
        ⟨s2, [Ev.enter, Ev.zget (if ino = 1 then 3 else ino) 0 vp,
          Ev.vop Prim.READLINK vp [((K.sizeof_charp - 1 : Nat) : Int)] 0 none, Ev.rele vp,
          Ev.exit]⟩⟩ := by
    simp [zfsslash2_readlink, zfs_zget, ZFS_ENTER, ZFS_EXIT, VN_RELE, World.log, World.init,
      VOP_READLINK, vopOut, hz, hr, hlen, List.take_take]
    intro h0
    omega
  refine ⟨_, key, rfl, ?_, ?_, hlen, rfl, hread, ?_⟩
  · simp [primCalls]
  · intro h8
    simp [primCalls, h8]
  · intro hlong
    have hl : (target.take (K.sizeof_charp - 1)).length = K.sizeof_charp - 1 := by
      rw [List.length_take]; omega
    have e1 : (target.take (K.sizeof_charp - 1)).length + 1 = K.sizeof_charp := by omega
    rw [e1] at hread
    refine ⟨hread, ?_⟩
    show writeBytes _ _ [0] (buf + (K.sizeof_charp - 1)) = 0
    rw [hl]
    have := writeBytes_inside (writeBytes m buf (target.take (K.sizeof_charp - 1)))
      (buf + (K.sizeof_charp - 1)) [0] 0 (by simp)
    simpa using this

/-- Witness of C16 on an LP64 target: the 11-byte target `/etc/passwd` is returned as its
first 7 bytes `/etc/pa` and a NUL at index 7, and the engine was asked for 7 bytes. -/
theorem C16_readlink_limit_witness :
    ∃ r, zfsslash2_readlink solarisConsts (linkEngine [47, 101, 116, 99, 47, 112, 97, 115, 115,
        119, 100] 0) (World.init ()) 9 1000 (fun _ => 255) = some r ∧ r.err = 0 ∧
      primCalls Prim.READLINK r.w.trace = [[7]] ∧
      readBytes r.val 1000 9 = [47, 101, 116, 99, 47, 112, 97, 0, 255] :=
  have h := C16_readlink_limit solarisConsts (linkEngine [47, 101, 116, 99, 47, 112, 97, 115,
    115, 119, 100] 0) () () () 9 1000 (fun _ => 255) ⟨9, 7, vtype.VDIR⟩
    [47, 101, 116, 99, 47, 112, 97, 115, 115, 119, 100] (by decide) rfl rfl
  match h with
  | ⟨r, h1, h2, _, h4, _, h6, _, _⟩ => ⟨r, h1, h2, h4 rfl, by rw [h6]; decide⟩

end handles

end ZfsSlash
